import Mathlib

/-!
Verification development for the counseling-session / record-conversion
repository.  The Python sources are shallowly embedded: pure functions of
`helpers.py` become Lean functions on `String`/`Int`/`List`, the JSON record
validator and the repair-retry converter of `psi_to_cactus-checkpoint.py`
become functions over an inductive `Json` type returning `Except String`,
and the mutable `CamelCounselingSession` of `camel_agent-checkpoint.py`
becomes explicit state passing over a `Session` structure, with the two
LLM-backed agents (network calls) abstracted as oracle function parameters.
-/

namespace Spec2Proof

/-! ### Python string primitives

Models of the pieces of Python string behaviour the sources rely on:
`str.strip` / `str.lower` (ASCII fragment, which covers every string the
sources compare against) and truthiness of `Optional[str]`. -/

/-- Characters Python's `str.strip()` removes (ASCII whitespace). -/
def isPySpace (c : Char) : Bool :=
  c == ' ' || c == '\t' || c == '\n' || c == '\r' || c == '\x0b' || c == '\x0c'

/-- Model of `str.strip()` on a character list: drop ASCII whitespace from
both ends. -/
def stripList (l : List Char) : List Char :=
  (((l.dropWhile isPySpace).reverse).dropWhile isPySpace).reverse

/-- Model of `str.strip()`. -/
def pyStrip (s : String) : String :=
  String.mk (stripList s.data)

/-- ASCII lower-casing of one character, the fragment of `str.lower()` the
sources need (they only compare against ASCII keywords). -/
def pyLowerChar (c : Char) : Char :=
  match c with
  | 'A' => 'a' | 'B' => 'b' | 'C' => 'c' | 'D' => 'd' | 'E' => 'e' | 'F' => 'f'
  | 'G' => 'g' | 'H' => 'h' | 'I' => 'i' | 'J' => 'j' | 'K' => 'k' | 'L' => 'l'
  | 'M' => 'm' | 'N' => 'n' | 'O' => 'o' | 'P' => 'p' | 'Q' => 'q' | 'R' => 'r'
  | 'S' => 's' | 'T' => 't' | 'U' => 'u' | 'V' => 'v' | 'W' => 'w' | 'X' => 'x'
  | 'Y' => 'y' | 'Z' => 'z' | _ => c

/-- Model of `str.lower()` (ASCII fragment). -/
def pyLower (s : String) : String :=
  String.mk (s.data.map pyLowerChar)

/-- Python truthiness of an `Optional[str]`: `None` and `""` are falsy. -/
def pyTruthy (o : Option String) : Bool :=
  match o with
  | none => false
  | some s => s != ""

/-- Python truthiness test `not s.strip()` used by the validator: `true` iff
the string is empty or all whitespace. -/
def blank (s : String) : Bool :=
  s.data.all isPySpace

/-! ### helpers.py: phase policy, trust parsing, evaluation cadence -/

/-- The `PHASE_UPGRADE_AT` dict of `helpers.py` (openness thresholds at which
each phase advances). -/
def PHASE_UPGRADE_AT : List (String × Int) :=
  [("trust_building", 3), ("case_conceptualization", 4), ("solution_exploration", 999)]

/-- Dictionary indexing `d[k]` for the threshold table (all keys the source
indexes with are present). -/
def dictGet (d : List (String × Int)) (k : String) : Int :=
  (((d.find? fun kv => kv.1 == k).map fun kv => kv.2).getD 0)

/-- Model of `helpers.next_phase`: advance `trust_building` at openness ≥ 3
and `case_conceptualization` at openness ≥ 4, otherwise return the current
phase unchanged. -/
def next_phase (cur : String) (openness : Int) : String :=
  if cur = "trust_building" ∧ openness ≥ dictGet PHASE_UPGRADE_AT "trust_building" then
    "case_conceptualization"
  else if cur = "case_conceptualization" ∧ openness ≥ dictGet PHASE_UPGRADE_AT "case_conceptualization" then
    "solution_exploration"
  else cur

/-- Position of a phase in the ordering trust_building <
case_conceptualization < solution_exploration (unknown strings sit at the
bottom; they are returned unchanged by `next_phase`). -/
def phaseRank (cur : String) : Nat :=
  if cur = "case_conceptualization" then 1
  else if cur = "solution_exploration" then 2
  else 0

/-- Model of `helpers.trust_eval_interval`: normalise the resistance level
with `strip` + `lower`, then map beginner/intermediate/advanced to 2/4/6 and
anything else (including `None`) to the safe default 2. -/
def trust_eval_interval (resistance_level : Option String) : Nat :=
  let lvl := pyLower (pyStrip (resistance_level.getD ""))
  if lvl = "beginner" then 2
  else if lvl = "intermediate" then 4
  else if lvl = "advanced" then 6
  else 2

/-- The normalisation `trust_eval_interval` applies to its argument
(`(resistance_level or "").strip().lower()`). -/
def normLevel (s : String) : String :=
  pyLower (pyStrip s)

/-- Word characters for the regex `\b` boundary (ASCII fragment of `\w`). -/
def isWordChar (c : Char) : Bool :=
  c.isAlphanum || c == '_'

/-- Value of a character as a digit 1–5, if it is one. -/
def digitVal15 (c : Char) : Option Nat :=
  if '1' ≤ c ∧ c ≤ '5' then some (c.toNat - 48) else none

/-- Left word-boundary test: the preceding character (if any) is not a word
character. -/
def okL (prev : Option Char) : Bool :=
  match prev with
  | some p => !isWordChar p
  | none => true

/-- Right word-boundary test: the following character (if any) is not a word
character. -/
def okR (rest : List Char) : Bool :=
  match rest with
  | c :: _ => !isWordChar c
  | [] => true

/-- Scanner for `re.search(r"\b([1-5])\b", text)`: leftmost digit 1–5 with a
word boundary on both sides, carrying the previous character. -/
def findTrust : Option Char → List Char → Option Nat
  | _, [] => none
  | prev, c :: rest =>
    match digitVal15 c with
    | some v => if okL prev && okR rest then some v else findTrust (some c) rest
    | none => findTrust (some c) rest

/-- Model of `helpers.parse_trust_score`. -/
def parse_trust_score (s : String) : Option Nat :=
  findTrust none s.data

/-- Declarative counterpart used to state the claim: the standalone digit 1–5
situated at position `i` of the text (with `prev` the character before the
current suffix), if any. -/
def standaloneAt : Option Char → List Char → Nat → Option Nat
  | _, [], _ => none
  | prev, c :: rest, 0 =>
    match digitVal15 c with
    | some v => if okL prev && okR rest then some v else none
    | none => none
  | _, c :: rest, i + 1 => standaloneAt (some c) rest i

/-- The standalone digit 1–5 at position `i` of the text, if any. -/
def standaloneDigitAt (l : List Char) (i : Nat) : Option Nat :=
  standaloneAt none l i

/-! ### JSON values

Python dicts are modelled as association lists in insertion order (the
inputs the converter handles carry no duplicate keys); numbers as integers
(no claim involves fractional values, and `isinstance(v, (int, float))`
also accepts `bool`, a subclass of `int` in Python, modelled by the `bool`
constructor). -/

/-- JSON values as `json.loads` produces them. -/
inductive Json where
  | null : Json
  | bool : Bool → Json
  | num : Int → Json
  | str : String → Json
  | arr : List Json → Json
  | obj : List (String × Json) → Json

/-- Lookup in a JSON object (Python `d[k]`, first binding wins). -/
def lookupJ (o : List (String × Json)) (k : String) : Option Json :=
  ((o.find? fun kv => kv.1 == k).map fun kv => kv.2)

/-- Python membership test `k in d`. -/
def hasKey (o : List (String × Json)) (k : String) : Bool :=
  (lookupJ o k).isSome

/-- Indexing `d[k]` at a key the source has already tested for membership
(the `.null` default is never reached on those paths). -/
def getJ (o : List (String × Json)) (k : String) : Json :=
  (lookupJ o k).getD Json.null

/-- The opening brace character, `\x7b`. -/
def lbrace : Char := Char.ofNat 123

/-- The closing brace character, `\x7d`. -/
def rbrace : Char := Char.ofNat 125

/-- Escape a string for JSON output (quote and backslash; the records the
development serialises contain no other special characters). -/
def escapeJ (s : String) : String :=
  String.mk (s.data.foldr (fun c acc => if c == '"' || c == '\\' then '\\' :: c :: acc else c :: acc) [])

mutual

/-- Compact model of `json.dumps` (the source passes `indent=2`; the
whitespace layout is immaterial to every property stated here, which only
ever embeds the serialised record in a larger prompt). -/
def Json.dumps : Json → String
  | .null => "null"
  | .bool b => if b then "true" else "false"
  | .num n => toString n
  | .str s => "\"" ++ escapeJ s ++ "\""
  | .arr l => "[" ++ dumpsArr l ++ "]"
  | .obj o => String.singleton lbrace ++ dumpsObj o ++ String.singleton rbrace

/-- Serialise array elements, comma-separated. -/
def dumpsArr : List Json → String
  | [] => ""
  | [x] => Json.dumps x
  | x :: y :: rest => Json.dumps x ++ ", " ++ dumpsArr (y :: rest)

/-- Serialise object members, comma-separated. -/
def dumpsObj : List (String × Json) → String
  | [] => ""
  | [(k, v)] => "\"" ++ escapeJ k ++ "\": " ++ Json.dumps v
  | (k, v) :: m :: rest => "\"" ++ escapeJ k ++ "\": " ++ Json.dumps v ++ ", " ++ dumpsObj (m :: rest)

end

/-! ### JSON parsing (`json.loads`)

A recursive-descent parser over the character list, with a fuel parameter
(one unit per nesting step, so `length + 1` always suffices).  It covers the
JSON fragment the converter's inputs live in: literals, integers, strings
with the common escapes, arrays and objects.  Anything else — in particular
the empty string and whitespace-only strings — is a parse error, never a
crash, matching `json.loads` raising `JSONDecodeError`. -/

/-- Drop JSON inter-token whitespace. -/
def skipWs (l : List Char) : List Char :=
  l.dropWhile fun c => c == ' ' || c == '\t' || c == '\n' || c == '\r'

/-- Parse the body of a JSON string after the opening quote.  `acc` holds the
characters read so far, reversed; the fuel (one unit per character, so the
remaining length plus one always suffices) keeps the recursion structural. -/
def parseStrBody : Nat → List Char → List Char → Except String (String × List Char)
  | 0, _, _ => .error "Unterminated string"
  | _ + 1, _, [] => .error "Unterminated string"
  | fuel + 1, acc, c :: rest =>
    if c == '"' then .ok (String.mk acc.reverse, rest)
    else if c == '\\' then
      match rest with
      | [] => .error "Unterminated string"
      | e :: rest2 =>
        if e == '"' then parseStrBody fuel ('"' :: acc) rest2
        else if e == '\\' then parseStrBody fuel ('\\' :: acc) rest2
        else if e == 'n' then parseStrBody fuel ('\n' :: acc) rest2
        else if e == 't' then parseStrBody fuel ('\t' :: acc) rest2
        else if e == '/' then parseStrBody fuel ('/' :: acc) rest2
        else .error "Invalid escape"
    else parseStrBody fuel (c :: acc) rest

/-- Digit characters to the natural number they spell. -/
def digitsToNat (l : List Char) : Nat :=
  l.foldl (fun a c => a * 10 + (c.toNat - 48)) 0

mutual

/-- Parse one JSON value; returns it with the unconsumed remainder. -/
def parseVal : Nat → List Char → Except String (Json × List Char)
  | 0, _ => .error "Expecting value"
  | fuel + 1, cs =>
    match skipWs cs with
    | [] => .error "Expecting value"
    | c :: rest =>
      if c == lbrace then
        match skipWs rest with
        | d :: rest2 =>
          if d == rbrace then .ok (.obj [], rest2)
          else parseObjItems fuel [] (d :: rest2)
        | [] => .error "Expecting property name"
      else if c == '[' then
        match skipWs rest with
        | d :: rest2 =>
          if d == ']' then .ok (.arr [], rest2)
          else parseArrItems fuel [] (d :: rest2)
        | [] => .error "Expecting value"
      else if c == '"' then
        match parseStrBody (rest.length + 1) [] rest with
        | .ok (s, rest2) => .ok (.str s, rest2)
        | .error e => .error e
      else if c == 'n' then
        match rest with
        | 'u' :: 'l' :: 'l' :: rest2 => .ok (.null, rest2)
        | _ => .error "Expecting value"
      else if c == 't' then
        match rest with
        | 'r' :: 'u' :: 'e' :: rest2 => .ok (.bool true, rest2)
        | _ => .error "Expecting value"
      else if c == 'f' then
        match rest with
        | 'a' :: 'l' :: 's' :: 'e' :: rest2 => .ok (.bool false, rest2)
        | _ => .error "Expecting value"
      else if c == '-' then
        let ds := rest.takeWhile Char.isDigit
        if ds.isEmpty then .error "Expecting value"
        else .ok (.num (-(digitsToNat ds : Int)), rest.dropWhile Char.isDigit)
      else if c.isDigit then
        let ds := (c :: rest).takeWhile Char.isDigit
        .ok (.num (digitsToNat ds : Int), (c :: rest).dropWhile Char.isDigit)
      else .error "Expecting value"

/-- Parse the elements of a non-empty array, accumulating in reverse. -/
def parseArrItems : Nat → List Json → List Char → Except String (Json × List Char)
  | 0, _, _ => .error "Expecting value"
  | fuel + 1, acc, cs =>
    match parseVal fuel cs with
    | .error e => .error e
    | .ok (v, rest) =>
      match skipWs rest with
      | ',' :: rest2 => parseArrItems fuel (v :: acc) rest2
      | ']' :: rest2 => .ok (.arr (v :: acc).reverse, rest2)
      | _ => .error "Expecting comma"

/-- Parse the members of a non-empty object, accumulating in reverse. -/
def parseObjItems : Nat → List (String × Json) → List Char → Except String (Json × List Char)
  | 0, _, _ => .error "Expecting property name"
  | fuel + 1, acc, cs =>
    match skipWs cs with
    | '"' :: rest =>
      match parseStrBody (rest.length + 1) [] rest with
      | .error e => .error e
      | .ok (k, rest2) =>
        match skipWs rest2 with
        | ':' :: rest3 =>
          match parseVal fuel rest3 with
          | .error e => .error e
          | .ok (v, rest4) =>
            match skipWs rest4 with
            | ',' :: rest5 => parseObjItems fuel ((k, v) :: acc) rest5
            | d :: rest5 =>
              if d == rbrace then .ok (.obj ((k, v) :: acc).reverse, rest5)
              else .error "Expecting comma"
            | [] => .error "Expecting comma"
        | _ => .error "Expecting colon"
    | _ => .error "Expecting property name"

end

/-- Model of `json.loads`: parse one value and require nothing but
whitespace after it. -/
def jsonLoads (s : String) : Except String Json :=
  match parseVal (s.data.length + 1) s.data with
  | .error e => .error e
  | .ok (j, rest) =>
    if (skipWs rest).isEmpty then .ok j else .error "Extra data"

/-! ### `_parse_json_strict`: fence stripping, then strict parsing -/

/-- Python `t.split("\n", 1)[1] if "\n" in t else ""`: everything after the
first newline, or the empty string when there is none. -/
def afterFirstNewline : List Char → List Char
  | [] => []
  | c :: rest => if c == '\n' then rest else afterFirstNewline rest

/-- The characters before the last occurrence of `pat`, or `none` when `pat`
does not occur — Python's `"```" in t` test combined with
`t.rsplit("```", 1)[0]`. -/
def beforeLast (pat : List Char) : List Char → Option (List Char)
  | [] => if pat.isPrefixOf ([] : List Char) then some [] else none
  | c :: rest =>
    match beforeLast pat rest with
    | some tail => some (c :: tail)
    | none => if pat.isPrefixOf (c :: rest) then some [] else none

/-- Model of `_parse_json_strict`: strip the text, peel a leading fenced
block (` ``` ` up to the matching closing fence) if present, strip again and
parse strictly. -/
def _parse_json_strict (text : String) : Except String Json :=
  let t := (pyStrip text).data
  let fence := "```".data
  let t2 :=
    if fence.isPrefixOf t then
      let afterF := afterFirstNewline t
      let noTail :=
        match beforeLast fence afterF with
        | some pre => pre
        | none => afterF
      (pyStrip (String.mk noTail)).data
    else t
  jsonLoads (String.mk t2)

/-! ### `_validate_cactus_shape`: the record validator

Each numbered check of the Python function becomes one named check, chained
with `Except.bind` in the source's order, so the first failing check's
message is the function's result exactly as in the source. -/

/-- The required top-level keys, in the source's check order. -/
def requiredTop : List String :=
  ["thought", "patterns", "intake_form", "cbt_technique", "cbt_plan"]

/-- The required `client_info` keys, in the source's check order. -/
def ciRequired : List String :=
  ["name", "age", "gender", "occupation", "education", "marital_status", "family_details"]

/-- The three list-valued intake fields and their minimum lengths, in the
source's check order. -/
def listFieldsSpec : List (String × Nat) :=
  [("presenting_problem", 3), ("past_history", 1),
   ("academic_occupational_functioning_level", 1)]

/-- The `cbt_plan` keys the validator requires. -/
def planKeys : List String := ["1", "2", "3", "4", "5"]

/-- The validator's message for a malformed `cbt_plan` entry. -/
def planMsg : String :=
  "cbt_plan must contain non-empty strings for keys \x271\x27..\x275\x27"

/-- Python `isinstance(v, str) and v.strip()`. -/
def isNonBlankStr : Json → Bool
  | .str s => !blank s
  | _ => false

/-- Python `isinstance(v, (int, float))` (which also accepts `bool`, an
`int` subclass). -/
def isNum : Json → Bool
  | .num _ => true
  | .bool _ => true
  | _ => false

/-- First required top-level key missing from the object, if any. -/
def firstMissing (keys : List String) (o : List (String × Json)) : Option String :=
  keys.find? fun k => !hasKey o k

/-- Check that every required top-level key is present. -/
def checkTop (o : List (String × Json)) : Except String Unit :=
  match firstMissing requiredTop o with
  | some k => .error ("Missing top-level key: " ++ k)
  | none => .ok ()

/-- Check `thought` is a non-empty string. -/
def checkThought (o : List (String × Json)) : Except String Unit :=
  if isNonBlankStr (getJ o "thought") then .ok ()
  else .error "thought must be a non-empty string"

/-- Check `patterns` is a non-empty list of non-empty strings. -/
def checkPatterns (o : List (String × Json)) : Except String Unit :=
  match getJ o "patterns" with
  | .arr l =>
    if l.isEmpty then .error "patterns must be a non-empty list of strings"
    else if l.any fun x => !isNonBlankStr x then
      .error "patterns must contain only non-empty strings"
    else .ok ()
  | _ => .error "patterns must be a non-empty list of strings"

/-- Per-field check inside `client_info`: `age` must be a number, every
other field a non-empty string. -/
def ciFieldCheck (k : String) (v : Json) : Except String Unit :=
  if k = "age" then
    if isNum v then .ok () else .error "client_info.age must be a number"
  else
    if isNonBlankStr v then .ok ()
    else .error ("client_info." ++ k ++ " must be a non-empty string")

/-- The `for k in ci_required` loop of the source: each key must be present
and well-typed, reporting the first offender. -/
def checkCIKeys : List String → List (String × Json) → Except String Unit
  | [], _ => .ok ()
  | k :: ks, ci =>
    if hasKey ci k then
      match ciFieldCheck k (getJ ci k) with
      | .error e => .error e
      | .ok _ => checkCIKeys ks ci
    else .error ("Missing intake_form.client_info key: " ++ k)

/-- Check `intake_form.client_info` is an object with the required fields. -/
def checkClientInfo (intake : List (String × Json)) : Except String Unit :=
  match getJ intake "client_info" with
  | .obj ci => checkCIKeys ciRequired ci
  | _ => .error "intake_form.client_info must be an object"

/-- The validator's length message for a list-valued intake field. -/
def lenMsg (f : String) (minLen : Nat) : String :=
  "intake_form." ++ f ++ " must be a list with at least " ++ toString minLen ++ " items"

/-- The validator's content message for a list-valued intake field. -/
def contentMsg (f : String) : String :=
  "intake_form." ++ f ++ " must contain only non-empty strings"

/-- Check one list-valued intake field: present, a list of at least
`minLen` items, all non-empty strings. -/
def checkListField (intake : List (String × Json)) (f : String) (minLen : Nat) :
    Except String Unit :=
  if hasKey intake f then
    match getJ intake f with
    | .arr l =>
      if l.length < minLen then .error (lenMsg f minLen)
      else if l.any fun x => !isNonBlankStr x then .error (contentMsg f)
      else .ok ()
    | _ => .error (lenMsg f minLen)
  else .error (lenMsg f minLen)

/-- The `for field, min_len in list_fields` loop of the source. -/
def checkListFieldsGo : List (String × Nat) → List (String × Json) → Except String Unit
  | [], _ => .ok ()
  | (f, m) :: rest, intake =>
    match checkListField intake f m with
    | .error e => .error e
    | .ok _ => checkListFieldsGo rest intake

/-- Check the three list-valued intake fields. -/
def checkListFields (intake : List (String × Json)) : Except String Unit :=
  checkListFieldsGo listFieldsSpec intake

/-- Check a required non-empty-string intake field (`reason_for_seeking_counseling`,
`social_support_system`). -/
def checkStrField (intake : List (String × Json)) (f : String) : Except String Unit :=
  if hasKey intake f && isNonBlankStr (getJ intake f) then .ok ()
  else .error ("intake_form." ++ f ++ " must be a non-empty string")

/-- Check everything under `intake_form`, in the source's order. -/
def checkIntake (o : List (String × Json)) : Except String Unit :=
  match getJ o "intake_form" with
  | .obj intake =>
    (checkClientInfo intake).bind fun _ =>
    (checkListFields intake).bind fun _ =>
    (checkStrField intake "reason_for_seeking_counseling").bind fun _ =>
    checkStrField intake "social_support_system"
  | _ => .error "intake_form must be an object"

/-- Check `cbt_technique` is a non-empty string. -/
def checkTechnique (o : List (String × Json)) : Except String Unit :=
  if isNonBlankStr (getJ o "cbt_technique") then .ok ()
  else .error "cbt_technique must be a non-empty string"

/-- The `for k in ["1".."5"]` loop of the source: each plan key must be
present with a non-empty string value (extra keys are not examined). -/
def checkPlanKeys : List String → List (String × Json) → Except String Unit
  | [], _ => .ok ()
  | k :: ks, p =>
    if hasKey p k && isNonBlankStr (getJ p k) then checkPlanKeys ks p
    else .error planMsg

/-- Check `cbt_plan` is an object holding non-empty strings at keys "1".."5". -/
def checkPlan (o : List (String × Json)) : Except String Unit :=
  match getJ o "cbt_plan" with
  | .obj p => checkPlanKeys planKeys p
  | _ => .error "cbt_plan must be an object"

/-- The whole-object validation chain, in the source's order. -/
def validateObj (o : List (String × Json)) : Except String Unit :=
  (checkTop o).bind fun _ =>
  (checkThought o).bind fun _ =>
  (checkPatterns o).bind fun _ =>
  (checkIntake o).bind fun _ =>
  (checkTechnique o).bind fun _ =>
  checkPlan o

/-- Model of `_validate_cactus_shape`: returns `.ok ()` where the source
returns, `.error msg` where the source raises `ValueError(msg)`.  A non-dict
argument fails its very first subscript/membership test in Python; the
message for that off-contract shape is not significant to any property
stated here. -/
def _validate_cactus_shape (j : Json) : Except String Unit :=
  match j with
  | .obj o => validateObj o
  | _ => .error "Missing top-level key: thought"

/-! ### `psi_case_to_cactus`: the repair-retry converter

The LLM gateway is an oracle `Nat → String` from the attempt index to the
raw response text (the system prompt, temperature and model are passed
unchanged on every call and carry no information the properties mention).
The loop also returns the list of user prompts it sent, in order, so call
counts and prompt contents are stated directly. -/

/-- One attempt's parse+validate pipeline with the error formatting
`f"{type(e).__name__}: {e}"` of the `except` clause. -/
def processResponse (r : String) : Except String Json :=
  match _parse_json_strict r with
  | .error e => .error ("JSONDecodeError: " ++ e)
  | .ok obj =>
    match _validate_cactus_shape obj with
    | .error e => .error ("ValueError: " ++ e)
    | .ok _ => .ok obj

/-- Python rendering of the `last_err` variable (`None` before the first
failure). -/
def lastErrStr (le : Option String) : String :=
  match le with
  | some e => e
  | none => "None"

/-- The repair prompt of attempts ≥ 1: the previous error message followed
by the original serialised case. -/
def repairUserPrompt (lastErr userPrompt : String) : String :=
  "Your previous output failed validation.\nERROR:\n" ++ lastErr ++
  "\n\nReturn ONLY corrected JSON that matches the required schema exactly. No markdown." ++
  "\n\nORIGINAL PSI CASE:\n" ++ userPrompt

/-- The exhaustion message of the final `raise ValueError(...)`. -/
def exhaustMsg (lastErr : String) : String :=
  "LLM output could not be validated after retries. Last error: " ++ lastErr

/-- The `for attempt in range(max_retries + 1)` loop: `fuel` counts the
attempts still available, `attempt` the current index, `le` the last error.
Returns the outcome and the user prompts sent. -/
def convGo (gw : Nat → String) (userPrompt : String) :
    Nat → Option String → Nat → Except String Json × List String
  | _, le, 0 => (.error (exhaustMsg (lastErrStr le)), [])
  | attempt, le, fuel + 1 =>
    let prompt :=
      if attempt == 0 then userPrompt
      else repairUserPrompt (lastErrStr le) userPrompt
    match processResponse (gw attempt) with
    | .ok obj => (.ok obj, [prompt])
    | .error e =>
      let rest := convGo gw userPrompt (attempt + 1) (some e) fuel
      (rest.1, prompt :: rest.2)

/-- Model of `psi_case_to_cactus`: serialise the case, then run the bounded
repair loop.  The first component is the returned record or the raised
`ValueError`'s message; the second lists the user prompt of every gateway
call made, in order. -/
def psi_case_to_cactus (gw : Nat → String) (psi_case : Json) (max_retries : Nat) :
    Except String Json × List String :=
  convGo gw (Json.dumps psi_case) 0 none (max_retries + 1)

/-! ### `CamelCounselingSession`

The mutable dataclass becomes explicit state passing: each operation takes
the session and returns the new session in an `Except` (an `.error` models
the raised `ValueError`, leaving the caller's session untouched).  The two
LLM-backed agents are abstracted as oracle parameters: `PlannerFn` stands
for `CBTPlannerAgent.generate_plan` (technique and plan extracted from the
raw completion) and `CounselorFn` for `CounselorAgent.next_utterance` (the
sanitised counselor reply); both wrap one network call.  The connection
fields (`vllm_server`, `model_id`, `max_tokens`, `temperature`) are gateway
plumbing and carry no session state. -/

/-- One history entry `{"role": ..., "message": ...}`. -/
structure Message where
  role : String
  message : String
deriving DecidableEq

/-- The session's mutable fields. -/
structure Session where
  intake_form : Option String
  reason : Option String
  cbt_technique : Option String
  cbt_plan : Option String
  history : List Message
deriving DecidableEq

/-- `CBTPlannerAgent.generate_plan` as an oracle: client information, reason
and history to the parsed `(cbt_technique, cbt_plan)` pair (either may come
back `None` from the permissive parsing). -/
abbrev PlannerFn : Type :=
  String → String → List Message → Option String × Option String

/-- `CounselorAgent.next_utterance` as an oracle: client information, reason,
plan and history to the sanitised counselor reply. -/
abbrev CounselorFn : Type :=
  String → String → String → List Message → String

/-- Model of `CamelCounselingSession.ensure_plan`.  The `Nat` counts the
planner (gateway) calls the operation makes: 0 on the idempotent path, 1
when a plan is created. -/
def ensure_plan (planner : PlannerFn) (s : Session) : Except String (Session × Nat) :=
  if !pyTruthy s.intake_form || !pyTruthy s.reason then
    .error "intake_form and reason must be set before planning."
  else if pyTruthy s.cbt_plan then .ok (s, 0)
  else
    let tp := planner (s.intake_form.getD "") (s.reason.getD "") s.history
    .ok ({ s with cbt_technique := tp.1, cbt_plan := some (tp.2.getD "") }, 1)

/-- Model of `CamelCounselingSession.step`: precondition check, lazy
planning, append the client message, obtain the counselor reply, append it,
return it with the new session. -/
def step (planner : PlannerFn) (counselor : CounselorFn) (s : Session)
    (client_message : String) : Except String (Session × String) :=
  if !pyTruthy s.intake_form || !pyTruthy s.reason then
    .error "Call start() or set intake_form/reason first."
  else
    match (if !pyTruthy s.cbt_plan then ensure_plan planner s else .ok (s, 0)) with
    | .error e => .error e
    | .ok (s1, _) =>
      let s2 := { s1 with history := s1.history ++ [Message.mk "Client" client_message] }
      let reply :=
        counselor (s2.intake_form.getD "") (s2.reason.getD "") (s2.cbt_plan.getD "")
          s2.history
      .ok ({ s2 with history := s2.history ++ [Message.mk "Counselor" reply] }, reply)

/-- The seeded greeting of `start`. -/
def greeting : String := "Hi, it\x27s nice to meet you. How can I assist you today?"

/-- Model of `CamelCounselingSession.start`: set intake and reason, seed the
history with the greeting and the optional first client message, then
`ensure_plan`. -/
def start (planner : PlannerFn) (s : Session) (intake_form reason : String)
    (first_client_message : String) : Except String Session :=
  let s1 : Session :=
    { s with
      intake_form := some intake_form
      reason := some reason
      history :=
        [Message.mk "Counselor" greeting] ++
          (if first_client_message != "" then [Message.mk "Client" first_client_message]
           else []) }
  match ensure_plan planner s1 with
  | .error e => .error e
  | .ok (s2, _) => .ok s2

/-! ### The target schema in the specification's words

Two straight transcriptions of the §3 schema description, used to compare
the specified schema with what the validator actually accepts: one with the
literal reading of "non-empty string" (`s ≠ ""`), and one with non-empty
tightened to non-blank (non-empty after stripping whitespace), which is
what the validator's `v.strip()` tests enforce. -/

/-- Literal reading: a non-empty string value. -/
def specStr (v : Option Json) : Bool :=
  match v with
  | some (.str s) => s != ""
  | _ => false

/-- Tightened reading: a non-blank string value. -/
def amendStr (v : Option Json) : Bool :=
  match v with
  | some (.str s) => !blank s
  | _ => false

/-- Literal reading: a list of at least `n` non-empty strings. -/
def specStrList (v : Option Json) (n : Nat) : Bool :=
  match v with
  | some (.arr l) =>
    decide (n ≤ l.length) &&
      l.all fun x => match x with | .str s => s != "" | _ => false
  | _ => false

/-- Tightened reading: a list of at least `n` non-blank strings. -/
def amendStrList (v : Option Json) (n : Nat) : Bool :=
  match v with
  | some (.arr l) =>
    decide (n ≤ l.length) &&
      l.all fun x => match x with | .str s => !blank s | _ => false
  | _ => false

/-- A numeric value (the schema's "numeric age"). -/
def specNum (v : Option Json) : Bool :=
  match v with
  | some (.num _) => true
  | _ => false

/-- The `client_info` clause, parameterised by the string reading. -/
def ciClause (strOk : Option Json → Bool) (ci : List (String × Json)) : Bool :=
  strOk (lookupJ ci "name") && specNum (lookupJ ci "age") &&
  strOk (lookupJ ci "gender") && strOk (lookupJ ci "occupation") &&
  strOk (lookupJ ci "education") && strOk (lookupJ ci "marital_status") &&
  strOk (lookupJ ci "family_details")

/-- The `cbt_plan` clause: an object with exactly the keys "1".."5",
parameterised by the string reading. -/
def planClause (strOk : Option Json → Bool) (v : Option Json) : Bool :=
  match v with
  | some (.obj p) =>
    (planKeys.all fun k => strOk (lookupJ p k)) &&
      p.all fun kv => planKeys.contains kv.1
  | _ => false

/-- The `intake_form` clause, parameterised by the string readings. -/
def intakeClause (strOk : Option Json → Bool) (listOk : Option Json → Nat → Bool)
    (v : Option Json) : Bool :=
  match v with
  | some (.obj intake) =>
    (match lookupJ intake "client_info" with
     | some (.obj ci) => ciClause strOk ci
     | _ => false) &&
    listOk (lookupJ intake "presenting_problem") 3 &&
    listOk (lookupJ intake "past_history") 1 &&
    listOk (lookupJ intake "academic_occupational_functioning_level") 1 &&
    strOk (lookupJ intake "reason_for_seeking_counseling") &&
    strOk (lookupJ intake "social_support_system")
  | _ => false

/-- The §3 target schema, parameterised by the string readings. -/
def schemaClause (strOk : Option Json → Bool) (listOk : Option Json → Nat → Bool)
    (j : Json) : Bool :=
  match j with
  | .obj o =>
    strOk (lookupJ o "thought") &&
    listOk (lookupJ o "patterns") 1 &&
    intakeClause strOk listOk (lookupJ o "intake_form") &&
    strOk (lookupJ o "cbt_technique") &&
    planClause strOk (lookupJ o "cbt_plan")
  | _ => false

/-- The §3 schema with "non-empty string" read literally (`s ≠ ""`). -/
def satisfiesSchemaSpec (j : Json) : Bool :=
  schemaClause specStr specStrList j

/-- The §3 schema with "non-empty" tightened to "non-blank". -/
def satisfiesSchemaAmended (j : Json) : Bool :=
  schemaClause amendStr amendStrList j

/-- The claim's "`cbt_plan` with exactly keys \x271\x27..\x275\x27" test in
isolation, for a record already known to be an object. -/
def cbtPlanExactlyKeys15 (j : Json) : Bool :=
  match j with
  | .obj o =>
    match lookupJ o "cbt_plan" with
    | some (.obj p) =>
      (planKeys.all fun k => hasKey p k) && p.all fun kv => planKeys.contains kv.1
    | _ => false
  | _ => false

/-! ### Object surgeries for the mutation claims -/

/-- Remove every binding of key `k` (removal of one required field). -/
def removeKey (o : List (String × Json)) (k : String) : List (String × Json) :=
  o.filter fun kv => kv.1 != k

/-- Apply `f` to the value bound at key `k`, leaving other bindings alone. -/
def setKeyF (o : List (String × Json)) (k : String) (f : Json → Json) :
    List (String × Json) :=
  o.map fun kv => if kv.1 == k then (kv.1, f kv.2) else kv

/-- Remove key `k` from a JSON object (identity on other shapes). -/
def removeObjKey (k : String) : Json → Json
  | .obj o => .obj (removeKey o k)
  | j => j

/-- Rewrite the value at key `k` of a JSON object with `f` (identity on
other shapes). -/
def mapObjVal (k : String) (f : Json → Json) : Json → Json
  | .obj o => .obj (setKeyF o k f)
  | j => j

/-- Truncate a JSON array to its first `n` elements (identity on other
shapes). -/
def truncArr (n : Nat) : Json → Json
  | .arr l => .arr (l.take n)
  | j => j

/-- Remove one top-level required field. -/
def removeTopField (j : Json) (k : String) : Json :=
  removeObjKey k j

/-- Remove one `client_info` field. -/
def removeCIField (j : Json) (k : String) : Json :=
  mapObjVal "intake_form" (mapObjVal "client_info" (removeObjKey k)) j

/-- Remove one field of `intake_form` itself. -/
def removeIntakeField (j : Json) (k : String) : Json :=
  mapObjVal "intake_form" (removeObjKey k) j

/-- Shorten `presenting_problem` to its first `n` items. -/
def truncPP (j : Json) (n : Nat) : Json :=
  mapObjVal "intake_form" (mapObjVal "presenting_problem" (truncArr n)) j

/-- Remove one key of `cbt_plan`. -/
def removePlanKey (j : Json) (k : String) : Json :=
  mapObjVal "cbt_plan" (removeObjKey k) j

/-! ### Shared concrete records -/

/-- A record meeting the §3 schema (non-blank reading) exactly. -/
def okJson : Json := .obj [
  ("thought", .str "a"),
  ("patterns", .arr [.str "p1"]),
  ("intake_form", .obj [
    ("client_info", .obj [
      ("name", .str "A"), ("age", .num 30), ("gender", .str "f"),
      ("occupation", .str "o"), ("education", .str "e"),
      ("marital_status", .str "m"), ("family_details", .str "d")]),
    ("presenting_problem", .arr [.str "x", .str "y", .str "z"]),
    ("past_history", .arr [.str "h"]),
    ("academic_occupational_functioning_level", .arr [.str "l"]),
    ("reason_for_seeking_counseling", .str "r"),
    ("social_support_system", .str "s")]),
  ("cbt_technique", .str "t"),
  ("cbt_plan", .obj [("1", .str "a"), ("2", .str "b"), ("3", .str "c"),
    ("4", .str "d"), ("5", .str "e")])]

/-- The same record with a whitespace-only `thought`: non-empty in the
literal sense, yet rejected by the validator. -/
def blankThoughtJson : Json := .obj [
  ("thought", .str " "),
  ("patterns", .arr [.str "p1"]),
  ("intake_form", .obj [
    ("client_info", .obj [
      ("name", .str "A"), ("age", .num 30), ("gender", .str "f"),
      ("occupation", .str "o"), ("education", .str "e"),
      ("marital_status", .str "m"), ("family_details", .str "d")]),
    ("presenting_problem", .arr [.str "x", .str "y", .str "z"]),
    ("past_history", .arr [.str "h"]),
    ("academic_occupational_functioning_level", .arr [.str "l"]),
    ("reason_for_seeking_counseling", .str "r"),
    ("social_support_system", .str "s")]),
  ("cbt_technique", .str "t"),
  ("cbt_plan", .obj [("1", .str "a"), ("2", .str "b"), ("3", .str "c"),
    ("4", .str "d"), ("5", .str "e")])]

/-- The same record with a sixth `cbt_plan` key: its plan does not have
exactly the keys "1".."5", yet the validator accepts it. -/
def sixPlanKeysJson : Json := .obj [
  ("thought", .str "a"),
  ("patterns", .arr [.str "p1"]),
  ("intake_form", .obj [
    ("client_info", .obj [
      ("name", .str "A"), ("age", .num 30), ("gender", .str "f"),
      ("occupation", .str "o"), ("education", .str "e"),
      ("marital_status", .str "m"), ("family_details", .str "d")]),
    ("presenting_problem", .arr [.str "x", .str "y", .str "z"]),
    ("past_history", .arr [.str "h"]),
    ("academic_occupational_functioning_level", .arr [.str "l"]),
    ("reason_for_seeking_counseling", .str "r"),
    ("social_support_system", .str "s")]),
  ("cbt_technique", .str "t"),
  ("cbt_plan", .obj [("1", .str "a"), ("2", .str "b"), ("3", .str "c"),
    ("4", .str "d"), ("5", .str "e"), ("6", .str "f")])]

/-! ## Phase policy and evaluation cadence (helpers.py) -/

/-- C5: `next_phase` advances trust_building to case_conceptualization
exactly at openness ≥ 3, advances case_conceptualization to
solution_exploration exactly at openness ≥ 4, leaves solution_exploration
and every unrecognised phase string unchanged, and is therefore
non-decreasing in the phase ordering. -/
theorem nextPhase_policy (openness : Int) :
    (next_phase "trust_building" openness =
      if openness ≥ 3 then "case_conceptualization" else "trust_building") ∧
    (next_phase "case_conceptualization" openness =
      if openness ≥ 4 then "solution_exploration" else "case_conceptualization") ∧
    next_phase "solution_exploration" openness = "solution_exploration" ∧
    (∀ cur, cur ≠ "trust_building" → cur ≠ "case_conceptualization" →
      next_phase cur openness = cur) ∧
    ∀ cur, phaseRank cur ≤ phaseRank (next_phase cur openness) := by
  refine ⟨?_, ?_, ?_, ?_, ?_⟩
  · simp [next_phase, dictGet, PHASE_UPGRADE_AT]
  · simp [next_phase, dictGet, PHASE_UPGRADE_AT]
  · simp [next_phase, dictGet, PHASE_UPGRADE_AT]
  · intro cur h1 h2
    simp [next_phase, h1, h2]
  · intro cur
    by_cases h1 : cur = "trust_building"
    · subst h1
      simp only [next_phase, dictGet, PHASE_UPGRADE_AT]
      split
      · simp [phaseRank]
      · simp [phaseRank]
    · by_cases h2 : cur = "case_conceptualization"
      · subst h2
        simp only [next_phase, dictGet, PHASE_UPGRADE_AT]
        split
        · simp_all [phaseRank]
        · split
          · simp [phaseRank]
          · simp [phaseRank]
      · simp [next_phase, h1, h2]

/-- C6: `trust_eval_interval` maps beginner, intermediate and advanced
resistance levels to 2, 4 and 6 re-evaluation turns, and everything else —
including an absent level — to the default 2. -/
theorem trustEvalInterval_policy :
    trust_eval_interval (some "beginner") = 2 ∧
    trust_eval_interval (some "intermediate") = 4 ∧
    trust_eval_interval (some "advanced") = 6 ∧
    trust_eval_interval none = 2 ∧
    ∀ s, normLevel s ≠ "beginner" → normLevel s ≠ "intermediate" →
      normLevel s ≠ "advanced" → trust_eval_interval (some s) = 2 := by
  refine ⟨by rfl, by rfl, by rfl, by rfl, ?_⟩
  intro s h1 h2 h3
  have h1' : pyLower (pyStrip s) ≠ "beginner" := h1
  have h2' : pyLower (pyStrip s) ≠ "intermediate" := h2
  have h3' : pyLower (pyStrip s) ≠ "advanced" := h3
  simp only [trust_eval_interval, Option.getD_some]
  rw [if_neg h1', if_neg h2', if_neg h3']

/-- C6 witness: an unrecognised level falls to the default. -/
theorem trustEvalInterval_policy_w : trust_eval_interval (some "mystery") = 2 :=
  trustEvalInterval_policy.2.2.2.2 "mystery" (by decide) (by decide) (by decide)

/-! ## Trust-score parsing (helpers.py) -/

/-- When the scanner finds nothing, no position carries a standalone
digit 1–5. -/
theorem findTrust_none_spec :
    ∀ {l : List Char} {prev : Option Char}, findTrust prev l = none →
      ∀ i, standaloneAt prev l i = none := by
  intro l
  induction l with
  | nil => intro prev _ i; cases i <;> rfl
  | cons c rest ih =>
    intro prev h i
    match hd : digitVal15 c with
    | some v =>
      simp only [findTrust, hd] at h
      by_cases hb : (okL prev && okR rest) = true
      · rw [if_pos hb] at h; exact absurd h (by simp)
      · rw [if_neg hb] at h
        cases i with
        | zero => simp only [standaloneAt, hd, if_neg hb]
        | succ j => exact ih h j
    | none =>
      simp only [findTrust, hd] at h
      cases i with
      | zero => simp only [standaloneAt, hd]
      | succ j => exact ih h j

/-- When the scanner returns a score, some position carries that standalone
digit and every earlier position carries none. -/
theorem findTrust_some_spec :
    ∀ {l : List Char} {prev : Option Char} {v : Nat}, findTrust prev l = some v →
      ∃ i, standaloneAt prev l i = some v ∧ ∀ j, j < i → standaloneAt prev l j = none := by
  intro l
  induction l with
  | nil => intro prev v h; exact absurd h (by simp [findTrust])
  | cons c rest ih =>
    intro prev v h
    match hd : digitVal15 c with
    | some w =>
      simp only [findTrust, hd] at h
      by_cases hb : (okL prev && okR rest) = true
      · rw [if_pos hb] at h
        refine ⟨0, ?_, fun j hj => absurd hj (Nat.not_lt_zero j)⟩
        simp only [standaloneAt, hd, if_pos hb]
        exact h
      · rw [if_neg hb] at h
        obtain ⟨i, hi, hlt⟩ := ih h
        refine ⟨i + 1, hi, fun j hj => ?_⟩
        cases j with
        | zero => simp only [standaloneAt, hd, if_neg hb]
        | succ j' => exact hlt j' (Nat.lt_of_succ_lt_succ hj)
    | none =>
      simp only [findTrust, hd] at h
      obtain ⟨i, hi, hlt⟩ := ih h
      refine ⟨i + 1, hi, fun j hj => ?_⟩
      cases j with
      | zero => simp only [standaloneAt, hd]
      | succ j' => exact hlt j' (Nat.lt_of_succ_lt_succ hj)

/-- C7: `parse_trust_score` returns exactly the first standalone
(word-boundary-delimited) digit 1–5 of the text, and nothing when no such
digit occurs; in particular 4 on "I\x27d rate it a 4 out of 5" and nothing
on "no numeric rating here". -/
theorem parseTrustScore_firstStandalone :
    (∀ (s : String) (v : Nat), parse_trust_score s = some v ↔
      ∃ i, standaloneDigitAt s.data i = some v ∧
        ∀ j, j < i → standaloneDigitAt s.data j = none) ∧
    (∀ s : String, parse_trust_score s = none ↔
      ∀ i, standaloneDigitAt s.data i = none) ∧
    parse_trust_score "I\x27d rate it a 4 out of 5" = some 4 ∧
    parse_trust_score "no numeric rating here" = none := by
  refine ⟨?_, ?_, by rfl, by rfl⟩
  · intro s v
    constructor
    · intro h
      obtain ⟨i, hi, hlt⟩ := findTrust_some_spec h
      exact ⟨i, hi, hlt⟩
    · rintro ⟨i, hi, hlt⟩
      have hi0 : standaloneAt none s.data i = some v := hi
      have hlt0 : ∀ j, j < i → standaloneAt none s.data j = none := hlt
      cases hf : parse_trust_score s with
      | none =>
        rw [findTrust_none_spec hf i] at hi0
        exact absurd hi0 (by simp)
      | some w =>
        obtain ⟨i', hi', hlt'⟩ := findTrust_some_spec hf
        rcases Nat.lt_trichotomy i i' with hc | hc | hc
        · rw [hlt' i hc] at hi0
          exact absurd hi0 (by simp)
        · subst hc
          rw [hi0] at hi'
          rw [Option.some.inj hi']
        · rw [hlt0 i' hc] at hi'
          exact absurd hi' (by simp)
  · intro s
    constructor
    · intro h i
      exact findTrust_none_spec h i
    · intro h
      cases hf : parse_trust_score s with
      | none => rfl
      | some w =>
        obtain ⟨i, hi, _⟩ := findTrust_some_spec hf
        have hni : standaloneAt none s.data i = none := h i
        rw [hni] at hi
        exact absurd hi (by simp)

/-- C7 witness: the leftmost-standalone-digit characterisation instantiated
on the spec's example text. -/
theorem parseTrustScore_firstStandalone_w :
    ∃ i, standaloneDigitAt ("I\x27d rate it a 4 out of 5").data i = some 4 ∧
      ∀ j, j < i → standaloneDigitAt ("I\x27d rate it a 4 out of 5").data j = none :=
  (parseTrustScore_firstStandalone.1 "I\x27d rate it a 4 out of 5" 4).mp (by rfl)

/-! ## Normalisation of the resistance level (C10 machinery) -/

/-- Every character either lower-cases to itself or is an upper-case ASCII
letter. -/
theorem pyLowerChar_eq_or (c : Char) :
    pyLowerChar c = c ∨
      c ∈ ['A', 'B', 'C', 'D', 'E', 'F', 'G', 'H', 'I', 'J', 'K', 'L', 'M',
           'N', 'O', 'P', 'Q', 'R', 'S', 'T', 'U', 'V', 'W', 'X', 'Y', 'Z'] := by
  unfold pyLowerChar
  split <;> first | (right; decide) | (left; rfl)

/-- Lower-casing does not create or destroy whitespace. -/
theorem isPySpace_pyLowerChar (c : Char) : isPySpace (pyLowerChar c) = isPySpace c := by
  rcases pyLowerChar_eq_or c with h | h
  · rw [h]
  · fin_cases h <;> decide

/-- Lower-casing one character is idempotent. -/
theorem pyLowerChar_idem (c : Char) : pyLowerChar (pyLowerChar c) = pyLowerChar c := by
  rcases pyLowerChar_eq_or c with h | h
  · rw [h]; exact h
  · fin_cases h <;> decide

/-- Lower-casing commutes with dropping leading whitespace. -/
theorem dropWhile_map_lower (l : List Char) :
    (l.map pyLowerChar).dropWhile isPySpace = (l.dropWhile isPySpace).map pyLowerChar := by
  induction l with
  | nil => rfl
  | cons c rest ih =>
    by_cases h : isPySpace c = true
    · have h2 : isPySpace (pyLowerChar c) = true := by rw [isPySpace_pyLowerChar]; exact h
      simp [List.dropWhile_cons, h, h2, ih]
    · have h2 : ¬isPySpace (pyLowerChar c) = true := by rw [isPySpace_pyLowerChar]; exact h
      simp [List.dropWhile_cons, h, h2]

/-- The strip operation is `dropWhile` then Mathlib's `rdropWhile`. -/
theorem stripList_eq_rdropWhile (l : List Char) :
    stripList l = (l.dropWhile isPySpace).rdropWhile isPySpace := by
  rfl

/-- Lower-casing commutes with stripping. -/
theorem stripList_map_lower (l : List Char) :
    stripList (l.map pyLowerChar) = (stripList l).map pyLowerChar := by
  simp only [stripList]
  rw [dropWhile_map_lower, ← List.map_reverse, dropWhile_map_lower, ← List.map_reverse]

/-- Stripping is idempotent. -/
theorem stripList_idem (l : List Char) : stripList (stripList l) = stripList l := by
  rw [stripList_eq_rdropWhile, stripList_eq_rdropWhile]
  set m := l.dropWhile isPySpace with hm
  have hmm : m.dropWhile isPySpace = m := List.dropWhile_idempotent isPySpace l
  set t := m.rdropWhile isPySpace with ht
  have hdt : t.dropWhile isPySpace = t := by
    rcases htc : t with _ | ⟨c, t'⟩
    · rfl
    · obtain ⟨tail, htail⟩ := List.rdropWhile_prefix isPySpace m
      rw [← ht, htc] at htail
      have hm2 : m = c :: (t' ++ tail) := by rw [← htail]; simp
      have hpc : ¬isPySpace c = true := by
        intro hp
        rw [hm2, List.dropWhile_cons, if_pos hp] at hmm
        have hle := (List.dropWhile_suffix (p := isPySpace) (l := t' ++ tail)).length_le
        rw [hmm] at hle
        simp at hle
      rw [List.dropWhile_cons, if_neg hpc]
  rw [hdt, List.rdropWhile_idempotent]

/-- The normalisation `strip` + `lower` is idempotent. -/
theorem normLevel_idem (s : String) : normLevel (normLevel s) = normLevel s := by
  show String.mk
      (List.map pyLowerChar (stripList (List.map pyLowerChar (stripList s.data)))) =
    String.mk (List.map pyLowerChar (stripList s.data))
  rw [stripList_map_lower, stripList_idem, List.map_map]
  have : pyLowerChar ∘ pyLowerChar = pyLowerChar := funext pyLowerChar_idem
  rw [this]

/-- C10: `trust_eval_interval` depends on its argument only through the
strip-and-lower-case normalisation, so "  Intermediate " yields 4 and
"ADVANCED" yields 6, and an absent level yields 2 without failing. -/
theorem trustEvalInterval_normalises :
    (∀ s, trust_eval_interval (some s) = trust_eval_interval (some (normLevel s))) ∧
    trust_eval_interval (some "  Intermediate ") = 4 ∧
    trust_eval_interval (some "ADVANCED") = 6 ∧
    trust_eval_interval none = 2 := by
  refine ⟨?_, by rfl, by rfl, by rfl⟩
  intro s
  have h : pyLower (pyStrip (normLevel s)) = pyLower (pyStrip s) := normLevel_idem s
  simp only [trust_eval_interval, Option.getD_some]
  simp only [h]

/-! ## The counseling session (camel_agent) -/

/-- C9: `ensure_plan` fails with the precondition error whenever the intake
form or the reason is unset (Python-falsy), and is a no-op making no
gateway call — returned session identical, zero planner calls — whenever a
plan already exists; this holds for every planner oracle, so no gateway
call can influence the result. -/
theorem ensurePlan_contract (planner : PlannerFn) (s : Session) :
    ((pyTruthy s.intake_form = false ∨ pyTruthy s.reason = false) →
      ensure_plan planner s = .error "intake_form and reason must be set before planning.") ∧
    (pyTruthy s.intake_form = true → pyTruthy s.reason = true →
      pyTruthy s.cbt_plan = true → ensure_plan planner s = .ok (s, 0)) := by
  constructor
  · rintro (h | h) <;> simp [ensure_plan, h]
  · intro h1 h2 h3
    simp [ensure_plan, h1, h2, h3]

/-- C8: `step` fails with the precondition error when intake form or reason
is unset (the functional embedding returns only the error, so the session
is untouched), and on a started session appends exactly the client message
followed by the counselor reply to the history — earlier entries unchanged —
and returns that reply. -/
theorem step_contract (planner : PlannerFn) (counselor : CounselorFn) (s : Session)
    (m : String) :
    ((pyTruthy s.intake_form = false ∨ pyTruthy s.reason = false) →
      step planner counselor s m = .error "Call start() or set intake_form/reason first.") ∧
    (pyTruthy s.intake_form = true → pyTruthy s.reason = true →
      ∃ s' reply, step planner counselor s m = .ok (s', reply) ∧
        s'.history = s.history ++ [Message.mk "Client" m, Message.mk "Counselor" reply]) := by
  constructor
  · rintro (h | h) <;> simp [step, h]
  · intro h1 h2
    cases hp : pyTruthy s.cbt_plan with
    | true =>
      refine ⟨{ s with history := (s.history ++ [Message.mk "Client" m]) ++
          [Message.mk "Counselor" (counselor (s.intake_form.getD "") (s.reason.getD "")
            (s.cbt_plan.getD "") (s.history ++ [Message.mk "Client" m]))] },
        counselor (s.intake_form.getD "") (s.reason.getD "") (s.cbt_plan.getD "")
          (s.history ++ [Message.mk "Client" m]), ?_, ?_⟩
      · simp only [step, h1, h2, hp]
        rfl
      · simp
    | false =>
      refine ⟨{ s with
          cbt_technique := (planner (s.intake_form.getD "") (s.reason.getD "") s.history).1,
          cbt_plan := some ((planner (s.intake_form.getD "") (s.reason.getD "") s.history).2.getD ""),
          history := (s.history ++ [Message.mk "Client" m]) ++
            [Message.mk "Counselor" (counselor (s.intake_form.getD "") (s.reason.getD "")
              ((planner (s.intake_form.getD "") (s.reason.getD "") s.history).2.getD "")
              (s.history ++ [Message.mk "Client" m]))] },
        counselor (s.intake_form.getD "") (s.reason.getD "")
          ((planner (s.intake_form.getD "") (s.reason.getD "") s.history).2.getD "")
          (s.history ++ [Message.mk "Client" m]), ?_, ?_⟩
      · simp only [step, h1, h2, hp, ensure_plan]
        rfl
      · simp

/-! ## The repair-retry converter (psi_case_to_cactus) -/

/-- Substring containment, used to state what the repair prompt carries. -/
def strContains (s sub : String) : Prop :=
  ∃ a b : String, s = a ++ sub ++ b

/-- String concatenation is associative. -/
theorem strAppend_assoc (a b c : String) : a ++ b ++ c = a ++ (b ++ c) := by
  cases a; cases b; cases c
  apply congrArg String.mk
  exact List.append_assoc _ _ _

/-- The empty string is a right identity for concatenation. -/
theorem strAppend_empty (a : String) : a ++ "" = a := by
  cases a
  apply congrArg String.mk
  exact List.append_nil _

/-- The error message of the last attempt processed. -/
def errMsgOf (r : Except String Json) : String :=
  match r with
  | .error e => e
  | .ok _ => ""

/-- When every available attempt fails, the loop makes exactly one gateway
call per unit of fuel and ends with the exhaustion message formed from the
last attempt's error. -/
theorem convGo_allFail :
    ∀ (fuel : Nat) (gw : Nat → String) (up : String) (attempt : Nat) (le : Option String),
      (∀ i, i < fuel → ∃ e, processResponse (gw (attempt + i)) = .error e) →
      (convGo gw up attempt le fuel).2.length = fuel ∧
      (convGo gw up attempt le fuel).1 = .error (exhaustMsg
        (match fuel with
         | 0 => lastErrStr le
         | f + 1 => errMsgOf (processResponse (gw (attempt + f))))) := by
  intro fuel
  induction fuel with
  | zero => intro gw up attempt le _; exact ⟨rfl, rfl⟩
  | succ f ih =>
    intro gw up attempt le h
    obtain ⟨e0, he0⟩ := h 0 (Nat.succ_pos f)
    rw [Nat.add_zero] at he0
    have hrec := ih gw up (attempt + 1) (some e0) (fun i hi => by
      obtain ⟨e, he⟩ := h (i + 1) (Nat.succ_lt_succ hi)
      exact ⟨e, by rw [show attempt + 1 + i = attempt + (i + 1) by omega]; exact he⟩)
    constructor
    · simp only [convGo, he0]
      simpa using hrec.1
    · simp only [convGo, he0]
      rw [hrec.2]
      cases f with
      | zero => simp [lastErrStr, errMsgOf, he0]
      | succ f' =>
        show Except.error (exhaustMsg (errMsgOf (processResponse (gw (attempt + 1 + f'))))) =
          Except.error (exhaustMsg (errMsgOf (processResponse (gw (attempt + (f' + 1))))))
        rw [show attempt + 1 + f' = attempt + (f' + 1) from by omega]

/-- C1: against a gateway whose output never parses and validates — the
empty or whitespace-only response being one such output, failing as a parse
error rather than a crash — the converter makes exactly `max_retries + 1`
gateway calls and then fails with the `ValueError` whose message carries the
last attempt's `JSONDecodeError`/`ValueError` text. -/
theorem convert_exhaustsRetries (gw : Nat → String) (psi : Json) (max_retries : Nat)
    (h : ∀ i, ∃ e, processResponse (gw i) = .error e) :
    (psi_case_to_cactus gw psi max_retries).2.length = max_retries + 1 ∧
    ∃ e, processResponse (gw max_retries) = .error e ∧
      (psi_case_to_cactus gw psi max_retries).1 = .error (exhaustMsg e) := by
  obtain ⟨hlen, hres⟩ := convGo_allFail (max_retries + 1) gw (Json.dumps psi) 0 none
    (fun i _ => by rw [Nat.zero_add]; exact h i)
  refine ⟨hlen, ?_⟩
  obtain ⟨e, he⟩ := h max_retries
  refine ⟨e, he, ?_⟩
  show (convGo gw (Json.dumps psi) 0 none (max_retries + 1)).1 = _
  rw [hres]
  show Except.error (exhaustMsg (errMsgOf (processResponse (gw (0 + max_retries))))) = _
  rw [Nat.zero_add, he]
  rfl

/-- C1 witness: a gateway that always answers with the empty string — a
parse failure on every attempt — exhausts a budget of 2 retries after 3
calls and surfaces the last parse error. -/
theorem convert_exhaustsRetries_w :
    (psi_case_to_cactus (fun _ => "") okJson 2).2.length = 2 + 1 ∧
    ∃ e, processResponse ((fun _ => "") 2) = .error e ∧
      (psi_case_to_cactus (fun _ => "") okJson 2).1 = .error (exhaustMsg e) :=
  convert_exhaustsRetries (fun _ => "") okJson 2
    (fun _ => ⟨"JSONDecodeError: Expecting value", rfl⟩)

/-- C2: against a gateway that fails on attempt 0 and returns a record
passing the validator on attempt 1, and any `max_retries ≥ 1`, the
converter returns that record after exactly two gateway calls, and the
second call's user prompt contains the first attempt's error text and the
original serialised case record. -/
theorem convert_repairSucceeds (gw : Nat → String) (psi : Json) (max_retries : Nat)
    (e0 : String) (obj : Json)
    (h0 : processResponse (gw 0) = .error e0)
    (h1 : processResponse (gw 1) = .ok obj)
    (hmr : 1 ≤ max_retries) :
    (psi_case_to_cactus gw psi max_retries).1 = .ok obj ∧
    (psi_case_to_cactus gw psi max_retries).2 =
      [Json.dumps psi, repairUserPrompt e0 (Json.dumps psi)] ∧
    strContains (repairUserPrompt e0 (Json.dumps psi)) e0 ∧
    strContains (repairUserPrompt e0 (Json.dumps psi)) (Json.dumps psi) := by
  obtain ⟨k, rfl⟩ : ∃ k, max_retries = k + 1 :=
    ⟨max_retries - 1, by omega⟩
  refine ⟨?_, ?_, ?_, ?_⟩
  · simp [psi_case_to_cactus, convGo, h0, h1, lastErrStr]
  · simp [psi_case_to_cactus, convGo, h0, h1, lastErrStr]
  · refine ⟨"Your previous output failed validation.\nERROR:\n",
      "\n\nReturn ONLY corrected JSON that matches the required schema exactly. No markdown." ++
        "\n\nORIGINAL PSI CASE:\n" ++ Json.dumps psi, ?_⟩
    simp only [repairUserPrompt, strAppend_assoc]
  · refine ⟨"Your previous output failed validation.\nERROR:\n" ++ e0 ++
      "\n\nReturn ONLY corrected JSON that matches the required schema exactly. No markdown." ++
        "\n\nORIGINAL PSI CASE:\n", "", ?_⟩
    simp only [repairUserPrompt, strAppend_assoc, strAppend_empty]

/-- C2 witness: unparseable text on attempt 0, the serialised valid record
on attempt 1, budget 2: the record comes back after exactly the two prompts,
the second carrying the error text and the case. -/
theorem convert_repairSucceeds_w :
    (psi_case_to_cactus (fun i => if i == 0 then "nonsense" else Json.dumps okJson)
        okJson 2).1 = .ok okJson ∧
    (psi_case_to_cactus (fun i => if i == 0 then "nonsense" else Json.dumps okJson)
        okJson 2).2 =
      [Json.dumps okJson,
       repairUserPrompt "JSONDecodeError: Expecting value" (Json.dumps okJson)] ∧
    strContains (repairUserPrompt "JSONDecodeError: Expecting value" (Json.dumps okJson))
      "JSONDecodeError: Expecting value" ∧
    strContains (repairUserPrompt "JSONDecodeError: Expecting value" (Json.dumps okJson))
      (Json.dumps okJson) :=
  convert_repairSucceeds (fun i => if i == 0 then "nonsense" else Json.dumps okJson)
    okJson 2 "JSONDecodeError: Expecting value" okJson rfl
    (by set_option maxRecDepth 100000 in rfl) (by omega)

/-! ## The record validator: framing lemmas -/

/-- Binding a successful unit check just continues. -/
theorem exceptBind_ok {f : Unit → Except String Unit} {a : Except String Unit}
    (h : a = .ok ()) : a.bind f = f () := by
  rw [h]; rfl

/-- Binding a failed check short-circuits. -/
theorem exceptBind_error {f : Unit → Except String Unit} {a : Except String Unit} {e : String}
    (h : a = .error e) : a.bind f = .error e := by
  rw [h]; rfl

/-- Unfolding lookup over a cons cell. -/
theorem lookupJ_cons (kv : String × Json) (rest : List (String × Json)) (k' : String) :
    lookupJ (kv :: rest) k' = if kv.1 = k' then some kv.2 else lookupJ rest k' := by
  by_cases h : kv.1 = k'
  · simp [lookupJ, List.find?_cons, h]
  · simp [lookupJ, List.find?_cons, h]

/-- Unfolding key removal over a cons cell. -/
theorem removeKey_cons (kv : String × Json) (rest : List (String × Json)) (k : String) :
    removeKey (kv :: rest) k =
      if kv.1 = k then removeKey rest k else kv :: removeKey rest k := by
  by_cases h : kv.1 = k
  · simp [removeKey, List.filter_cons, h]
  · simp [removeKey, List.filter_cons, h]

/-- Unfolding value update over a cons cell. -/
theorem setKeyF_cons (kv : String × Json) (rest : List (String × Json)) (k : String)
    (f : Json → Json) :
    setKeyF (kv :: rest) k f =
      (if kv.1 = k then (kv.1, f kv.2) else kv) :: setKeyF rest k f := by
  by_cases h : kv.1 = k
  · simp [setKeyF, h]
  · simp [setKeyF, h]

/-- Removing a key empties its lookup. -/
theorem lookupJ_removeKey_self (o : List (String × Json)) (k : String) :
    lookupJ (removeKey o k) k = none := by
  induction o with
  | nil => rfl
  | cons kv rest ih =>
    rw [removeKey_cons]
    by_cases h : kv.1 = k
    · rw [if_pos h]; exact ih
    · rw [if_neg h, lookupJ_cons, if_neg h]; exact ih

/-- Removing a key leaves other lookups alone. -/
theorem lookupJ_removeKey_ne (o : List (String × Json)) (k k' : String) (h : k' ≠ k) :
    lookupJ (removeKey o k) k' = lookupJ o k' := by
  induction o with
  | nil => rfl
  | cons kv rest ih =>
    rw [removeKey_cons]
    by_cases hk : kv.1 = k
    · rw [if_pos hk, lookupJ_cons, if_neg (by rw [hk]; exact fun hc => h hc.symm)]
      exact ih
    · rw [if_neg hk, lookupJ_cons, lookupJ_cons]
      by_cases hk' : kv.1 = k'
      · rw [if_pos hk', if_pos hk']
      · rw [if_neg hk', if_neg hk']; exact ih

/-- Updating a key's value rewrites its lookup through the function. -/
theorem lookupJ_setKeyF_self (o : List (String × Json)) (k : String) (f : Json → Json) :
    lookupJ (setKeyF o k f) k = (lookupJ o k).map f := by
  induction o with
  | nil => rfl
  | cons kv rest ih =>
    rw [setKeyF_cons]
    by_cases h : kv.1 = k
    · rw [if_pos h, lookupJ_cons, if_pos h, lookupJ_cons, if_pos h]
      rfl
    · rw [if_neg h, lookupJ_cons, if_neg h, lookupJ_cons, if_neg h]
      exact ih

/-- Updating a key's value leaves other lookups alone. -/
theorem lookupJ_setKeyF_ne (o : List (String × Json)) (k : String) (f : Json → Json)
    (k' : String) (h : k' ≠ k) :
    lookupJ (setKeyF o k f) k' = lookupJ o k' := by
  induction o with
  | nil => rfl
  | cons kv rest ih =>
    rw [setKeyF_cons]
    by_cases hk : kv.1 = k
    · rw [if_pos hk, lookupJ_cons]
      have hne : ¬kv.1 = k' := by rw [hk]; exact fun hc => h hc.symm
      rw [if_neg hne, lookupJ_cons, if_neg hne]
      exact ih
    · rw [if_neg hk, lookupJ_cons, lookupJ_cons]
      by_cases hk' : kv.1 = k'
      · rw [if_pos hk', if_pos hk']
      · rw [if_neg hk', if_neg hk']; exact ih

/-- Updating one key's value does not change which keys exist. -/
theorem hasKey_setKeyF (o : List (String × Json)) (k : String) (f : Json → Json)
    (k' : String) : hasKey (setKeyF o k f) k' = hasKey o k' := by
  by_cases h : k' = k
  · subst h
    rw [hasKey, lookupJ_setKeyF_self, hasKey]
    cases lookupJ o k' <;> rfl
  · rw [hasKey, lookupJ_setKeyF_ne o k f k' h, hasKey]

/-- Removing a key from an object makes exactly that key miss. -/
theorem hasKey_removeKey_self (o : List (String × Json)) (k : String) :
    hasKey (removeKey o k) k = false := by
  rw [hasKey, lookupJ_removeKey_self]
  rfl

/-- Removing a key keeps the others. -/
theorem hasKey_removeKey_ne (o : List (String × Json)) (k k' : String) (h : k' ≠ k) :
    hasKey (removeKey o k) k' = hasKey o k' := by
  rw [hasKey, lookupJ_removeKey_ne o k k' h, hasKey]

/-- `getJ` after removing a different key. -/
theorem getJ_removeKey_ne (o : List (String × Json)) (k k' : String) (h : k' ≠ k) :
    getJ (removeKey o k) k' = getJ o k' := by
  rw [getJ, lookupJ_removeKey_ne o k k' h, getJ]

/-- `getJ` after updating a different key. -/
theorem getJ_setKeyF_ne (o : List (String × Json)) (k : String) (f : Json → Json)
    (k' : String) (h : k' ≠ k) :
    getJ (setKeyF o k f) k' = getJ o k' := by
  rw [getJ, lookupJ_setKeyF_ne o k f k' h, getJ]

/-- A `getJ` hitting an object pins down the lookup. -/
theorem lookupJ_of_getJ_obj {o : List (String × Json)} {k : String}
    {i : List (String × Json)} (h : getJ o k = .obj i) :
    lookupJ o k = some (.obj i) := by
  rw [getJ] at h
  cases hl : lookupJ o k with
  | none => rw [hl] at h; exact absurd h (by simp [Option.getD])
  | some v => rw [hl] at h; rw [Option.getD_some] at h; rw [h]

/-- Updating one key leaves `firstMissing` unchanged. -/
theorem firstMissing_setKeyF (keys : List String) (o : List (String × Json))
    (k : String) (f : Json → Json) :
    firstMissing keys (setKeyF o k f) = firstMissing keys o := by
  induction keys with
  | nil => rfl
  | cons k0 ks ih =>
    simp only [firstMissing, List.find?_cons] at *
    rw [hasKey_setKeyF]
    cases hasKey o k0 <;> simp [ih]

/-- When every required key is present, removing `k` makes `k` the first
missing key. -/
theorem firstMissing_removeKey (keys : List String) (o : List (String × Json))
    (k : String) (hok : firstMissing keys o = none) (hmem : k ∈ keys) :
    firstMissing keys (removeKey o k) = some k := by
  induction keys with
  | nil => exact absurd hmem (List.not_mem_nil k)
  | cons k0 ks ih =>
    simp only [firstMissing, List.find?_cons] at *
    cases hk0 : hasKey o k0 with
    | false => simp [hk0] at hok
    | true =>
      by_cases heq : k0 = k
      · subst heq
        rw [hasKey_removeKey_self]
        rfl
      · rw [hasKey_removeKey_ne o k k0 heq]
        rw [hk0] at hok ⊢
        simp only [Bool.not_true] at *
        rcases List.mem_cons.mp hmem with hc | hc
        · exact absurd hc.symm heq
        · simpa using ih (by simpa using hok) hc

/-- Destructuring a true non-blank-string clause. -/
theorem amendStr_true {v : Option Json} (h : amendStr v = true) :
    ∃ s, v = some (.str s) ∧ blank s = false := by
  match v with
  | some (.str s) => exact ⟨s, rfl, by simpa [amendStr] using h⟩
  | none => exact absurd h (by simp [amendStr])
  | some .null => exact absurd h (by simp [amendStr])
  | some (.bool _) => exact absurd h (by simp [amendStr])
  | some (.num _) => exact absurd h (by simp [amendStr])
  | some (.arr _) => exact absurd h (by simp [amendStr])
  | some (.obj _) => exact absurd h (by simp [amendStr])

/-- Destructuring a true numeric clause. -/
theorem specNum_true {v : Option Json} (h : specNum v = true) :
    ∃ n, v = some (.num n) := by
  match v with
  | some (.num n) => exact ⟨n, rfl⟩
  | none => exact absurd h (by simp [specNum])
  | some .null => exact absurd h (by simp [specNum])
  | some (.bool _) => exact absurd h (by simp [specNum])
  | some (.str _) => exact absurd h (by simp [specNum])
  | some (.arr _) => exact absurd h (by simp [specNum])
  | some (.obj _) => exact absurd h (by simp [specNum])

/-- Destructuring a true non-blank-string-list clause. -/
theorem amendStrList_true {v : Option Json} {n : Nat} (h : amendStrList v n = true) :
    ∃ l, v = some (.arr l) ∧ n ≤ l.length ∧ ∀ x ∈ l, isNonBlankStr x = true := by
  match v with
  | some (.arr l) =>
    have h2 : (decide (n ≤ l.length) &&
        l.all fun x => match x with | Json.str s => !blank s | _ => false) = true := h
    rw [Bool.and_eq_true] at h2
    obtain ⟨ha, hb⟩ := h2
    refine ⟨l, rfl, of_decide_eq_true ha, ?_⟩
    intro x hx
    have hxx := List.all_eq_true.mp hb x hx
    match x, hxx with
    | .str s, hs => exact hs
    | .null, hs => exact Bool.noConfusion hs
    | .bool _, hs => exact Bool.noConfusion hs
    | .num _, hs => exact Bool.noConfusion hs
    | .arr _, hs => exact Bool.noConfusion hs
    | .obj _, hs => exact Bool.noConfusion hs
  | none => exact absurd h (by simp [amendStrList])
  | some .null => exact absurd h (by simp [amendStrList])
  | some (.bool _) => exact absurd h (by simp [amendStrList])
  | some (.num _) => exact absurd h (by simp [amendStrList])
  | some (.str _) => exact absurd h (by simp [amendStrList])
  | some (.obj _) => exact absurd h (by simp [amendStrList])

/-- A true non-blank-string clause yields a passing simple string check. -/
theorem checkStrField_of {i : List (String × Json)} {f : String}
    (h : amendStr (lookupJ i f) = true) : checkStrField i f = .ok () := by
  obtain ⟨s, hl, hb⟩ := amendStr_true h
  simp [checkStrField, hasKey, getJ, hl, isNonBlankStr, hb]

/-- A true non-blank-string clause yields a passing `thought` check. -/
theorem checkThought_of {o : List (String × Json)}
    (h : amendStr (lookupJ o "thought") = true) : checkThought o = .ok () := by
  obtain ⟨s, hl, hb⟩ := amendStr_true h
  simp [checkThought, getJ, hl, isNonBlankStr, hb]

/-- A true non-blank-string clause yields a passing `cbt_technique` check. -/
theorem checkTechnique_of {o : List (String × Json)}
    (h : amendStr (lookupJ o "cbt_technique") = true) : checkTechnique o = .ok () := by
  obtain ⟨s, hl, hb⟩ := amendStr_true h
  simp [checkTechnique, getJ, hl, isNonBlankStr, hb]

/-- Lists of non-blank strings never trip the element scan. -/
theorem any_notNonBlank_false {l : List Json}
    (h : ∀ x ∈ l, isNonBlankStr x = true) :
    (l.any fun x => !isNonBlankStr x) = false := by
  rw [List.any_eq_false]
  intro x hx
  rw [h x hx]
  simp

/-- A true list clause yields a passing list-field check. -/
theorem checkListField_of {i : List (String × Json)} {f : String} {n : Nat}
    (h : amendStrList (lookupJ i f) n = true) : checkListField i f n = .ok () := by
  obtain ⟨l, hl, hlen, hels⟩ := amendStrList_true h
  have hany := any_notNonBlank_false hels
  simp [checkListField, hasKey, getJ, hl, Nat.not_lt.mpr hlen, hany]

/-- A true patterns clause yields a passing `patterns` check. -/
theorem checkPatterns_of {o : List (String × Json)}
    (h : amendStrList (lookupJ o "patterns") 1 = true) : checkPatterns o = .ok () := by
  obtain ⟨l, hl, hlen, hels⟩ := amendStrList_true h
  have hany := any_notNonBlank_false hels
  have hempty : l.isEmpty = false := by
    cases l
    · simp at hlen
    · rfl
  simp [checkPatterns, getJ, hl, hempty, hany]

/-- Destructuring a true `client_info` clause into its seven field facts,
then running the key loop. -/
theorem checkCIKeys_of_ciClause {ci : List (String × Json)}
    (h : ciClause amendStr ci = true) : checkCIKeys ciRequired ci = .ok () := by
  simp only [ciClause, Bool.and_eq_true] at h
  obtain ⟨⟨⟨⟨⟨⟨hname, hage⟩, hgen⟩, hocc⟩, hedu⟩, hmar⟩, hfam⟩ := h
  obtain ⟨sn, hln, hbn⟩ := amendStr_true hname
  obtain ⟨an, hla⟩ := specNum_true hage
  obtain ⟨sg, hlg, hbg⟩ := amendStr_true hgen
  obtain ⟨so, hlo, hbo⟩ := amendStr_true hocc
  obtain ⟨se, hle, hbe⟩ := amendStr_true hedu
  obtain ⟨sm, hlm, hbm⟩ := amendStr_true hmar
  obtain ⟨sf, hlf, hbf⟩ := amendStr_true hfam
  simp [checkCIKeys, ciRequired, ciFieldCheck, hasKey, getJ, isNonBlankStr, isNum,
    hln, hbn, hla, hlg, hbg, hlo, hbo, hle, hbe, hlm, hbm, hlf, hbf]

/-- Destructuring a true plan clause. -/
theorem planClause_true {v : Option Json} (h : planClause amendStr v = true) :
    ∃ p, v = some (.obj p) ∧ ∀ k ∈ planKeys, amendStr (lookupJ p k) = true := by
  match v with
  | some (.obj p) =>
    have h2 : ((planKeys.all fun k => amendStr (lookupJ p k)) &&
        p.all fun kv => planKeys.contains kv.1) = true := h
    rw [Bool.and_eq_true] at h2
    exact ⟨p, rfl, fun k hk => List.all_eq_true.mp h2.1 k hk⟩
  | none => exact absurd h (by simp [planClause])
  | some .null => exact absurd h (by simp [planClause])
  | some (.bool _) => exact absurd h (by simp [planClause])
  | some (.num _) => exact absurd h (by simp [planClause])
  | some (.str _) => exact absurd h (by simp [planClause])
  | some (.arr _) => exact absurd h (by simp [planClause])

/-- Non-blank strings at the five plan keys satisfy the plan-key loop. -/
theorem checkPlanKeys_of {p : List (String × Json)}
    (h : ∀ k ∈ planKeys, amendStr (lookupJ p k) = true) :
    checkPlanKeys planKeys p = .ok () := by
  obtain ⟨s1, hl1, hb1⟩ := amendStr_true (h "1" (by simp [planKeys]))
  obtain ⟨s2, hl2, hb2⟩ := amendStr_true (h "2" (by simp [planKeys]))
  obtain ⟨s3, hl3, hb3⟩ := amendStr_true (h "3" (by simp [planKeys]))
  obtain ⟨s4, hl4, hb4⟩ := amendStr_true (h "4" (by simp [planKeys]))
  obtain ⟨s5, hl5, hb5⟩ := amendStr_true (h "5" (by simp [planKeys]))
  simp [checkPlanKeys, planKeys, hasKey, getJ, isNonBlankStr,
    hl1, hb1, hl2, hb2, hl3, hb3, hl4, hb4, hl5, hb5]

/-- Destructuring a true intake clause. -/
theorem intakeClause_true {v : Option Json}
    (h : intakeClause amendStr amendStrList v = true) :
    ∃ i, v = some (.obj i) ∧
      (∃ ci, lookupJ i "client_info" = some (.obj ci) ∧ ciClause amendStr ci = true) ∧
      amendStrList (lookupJ i "presenting_problem") 3 = true ∧
      amendStrList (lookupJ i "past_history") 1 = true ∧
      amendStrList (lookupJ i "academic_occupational_functioning_level") 1 = true ∧
      amendStr (lookupJ i "reason_for_seeking_counseling") = true ∧
      amendStr (lookupJ i "social_support_system") = true := by
  match v with
  | some (.obj i) =>
    simp only [intakeClause, Bool.and_eq_true] at h
    obtain ⟨⟨⟨⟨⟨hci, hpp⟩, hph⟩, hao⟩, hre⟩, hso⟩ := h
    refine ⟨i, rfl, ?_, hpp, hph, hao, hre, hso⟩
    cases hl : lookupJ i "client_info" with
    | none => rw [hl] at hci; exact absurd hci (by simp)
    | some w =>
      rw [hl] at hci
      cases w with
      | obj ci => exact ⟨ci, rfl, hci⟩
      | null => exact Bool.noConfusion hci
      | bool b => exact Bool.noConfusion hci
      | num n => exact Bool.noConfusion hci
      | str t => exact Bool.noConfusion hci
      | arr a => exact Bool.noConfusion hci
  | none => exact absurd h (by simp [intakeClause])
  | some .null => exact absurd h (by simp [intakeClause])
  | some (.bool _) => exact absurd h (by simp [intakeClause])
  | some (.num _) => exact absurd h (by simp [intakeClause])
  | some (.str _) => exact absurd h (by simp [intakeClause])
  | some (.arr _) => exact absurd h (by simp [intakeClause])

/-- A true intake clause yields a passing `intake_form` stage. -/
theorem checkIntake_of {o : List (String × Json)}
    (h : intakeClause amendStr amendStrList (lookupJ o "intake_form") = true) :
    checkIntake o = .ok () := by
  obtain ⟨i, hl, ⟨ci, hlci, hcc⟩, hpp, hph, hao, hre, hso⟩ := intakeClause_true h
  have hclient : checkClientInfo i = .ok () := by
    simp only [checkClientInfo, getJ, hlci, Option.getD_some]
    exact checkCIKeys_of_ciClause hcc
  have hlists : checkListFields i = .ok () := by
    simp [checkListFields, checkListFieldsGo, listFieldsSpec,
      checkListField_of hpp, checkListField_of hph, checkListField_of hao]
  simp only [checkIntake, getJ, hl, Option.getD_some]
  rw [exceptBind_ok hclient, exceptBind_ok hlists,
    exceptBind_ok (checkStrField_of hre)]
  exact checkStrField_of hso

/-- An option known to hold a value is not `none`. -/
theorem isNone_false_of_isSome {α : Type} {a : Option α} (h : a.isSome = true) :
    a.isNone = false := by
  cases a
  · exact absurd h (by simp)
  · rfl

/-- The top-level key scan passes when every top-level clause holds. -/
theorem checkTop_of {o : List (String × Json)}
    (h1 : (lookupJ o "thought").isSome = true)
    (h2 : (lookupJ o "patterns").isSome = true)
    (h3 : (lookupJ o "intake_form").isSome = true)
    (h4 : (lookupJ o "cbt_technique").isSome = true)
    (h5 : (lookupJ o "cbt_plan").isSome = true) :
    checkTop o = .ok () := by
  simp [checkTop, firstMissing, requiredTop, List.find?_cons, hasKey,
    isNone_false_of_isSome h1, isNone_false_of_isSome h2, isNone_false_of_isSome h3,
    isNone_false_of_isSome h4, isNone_false_of_isSome h5]

/-- Removing a `client_info` key from a record whose `client_info` checks
out makes the key loop report exactly that missing key. -/
theorem checkCIKeys_removeKey (keys : List String) (ci : List (String × Json)) (k : String)
    (hok : checkCIKeys keys ci = .ok ()) (hmem : k ∈ keys) :
    checkCIKeys keys (removeKey ci k) =
      .error ("Missing intake_form.client_info key: " ++ k) := by
  induction keys with
  | nil => exact absurd hmem (List.not_mem_nil k)
  | cons k0 ks ih =>
    rw [checkCIKeys] at hok
    cases hk0 : hasKey ci k0 with
    | false => rw [if_neg (by simp [hk0])] at hok; exact absurd hok (by simp)
    | true =>
      rw [if_pos hk0] at hok
      cases hfc : ciFieldCheck k0 (getJ ci k0) with
      | error e => rw [hfc] at hok; exact absurd hok (by simp)
      | ok u =>
        cases u
        rw [hfc] at hok
        by_cases heq : k0 = k
        · subst heq
          rw [checkCIKeys, if_neg (by simp [hasKey_removeKey_self])]
        · rw [checkCIKeys, if_pos (by rw [hasKey_removeKey_ne ci k k0 heq]; exact hk0),
            getJ_removeKey_ne ci k k0 heq, hfc]
          rcases List.mem_cons.mp hmem with hc | hc
          · exact absurd hc.symm heq
          · exact ih hok hc

/-- Removing a plan key from a valid plan makes the plan-key loop fail with
the plan message. -/
theorem checkPlanKeys_removeKey (keys : List String) (p : List (String × Json)) (k : String)
    (hok : checkPlanKeys keys p = .ok ()) (hmem : k ∈ keys) :
    checkPlanKeys keys (removeKey p k) = .error planMsg := by
  induction keys with
  | nil => exact absurd hmem (List.not_mem_nil k)
  | cons k0 ks ih =>
    rw [checkPlanKeys] at hok
    cases hcond : (hasKey p k0 && isNonBlankStr (getJ p k0)) with
    | false => rw [if_neg (by simp [hcond])] at hok; exact absurd hok (by simp)
    | true =>
      rw [if_pos hcond] at hok
      by_cases heq : k0 = k
      · subst heq
        rw [checkPlanKeys, if_neg (by simp [hasKey_removeKey_self])]
      · rw [checkPlanKeys, if_pos (by
          rw [hasKey_removeKey_ne p k k0 heq, getJ_removeKey_ne p k k0 heq]; exact hcond)]
        rcases List.mem_cons.mp hmem with hc | hc
        · exact absurd hc.symm heq
        · exact ih hok hc

/-! ## C3: schema round-trip through the validator -/

/-- C3 counterexample: the literal "non-empty string" reading of the §3
schema is satisfied by a record whose `thought` is a single space, yet the
validator rejects that record (its `v.strip()` truthiness tests demand
non-blank, not just non-empty). -/
theorem schemaSpec_not_sufficient :
    satisfiesSchemaSpec blankThoughtJson = true ∧
    _validate_cactus_shape blankThoughtJson =
      .error "thought must be a non-empty string" := by
  exact ⟨by rfl, by rfl⟩

/-- C3 amended: every record satisfying the §3 schema with "non-empty"
read as non-blank (non-empty after stripping whitespace) passes
`_validate_cactus_shape` with no violation raised. -/
theorem validator_accepts_schema (j : Json) (h : satisfiesSchemaAmended j = true) :
    _validate_cactus_shape j = .ok () := by
  cases j with
  | obj o =>
    simp only [satisfiesSchemaAmended, schemaClause, Bool.and_eq_true] at h
    obtain ⟨⟨⟨⟨hth, hpat⟩, hint⟩, htech⟩, hplan⟩ := h
    obtain ⟨t, hlt, hbt⟩ := amendStr_true hth
    obtain ⟨pl, hlp, hplen, hpels⟩ := amendStrList_true hpat
    obtain ⟨i, hli, hrest⟩ := intakeClause_true hint
    obtain ⟨st, hltech, hbtech⟩ := amendStr_true htech
    obtain ⟨p, hlpl, hpk⟩ := planClause_true hplan
    show validateObj o = .ok ()
    rw [validateObj,
      exceptBind_ok (checkTop_of (by rw [hlt]; rfl) (by rw [hlp]; rfl)
        (by rw [hli]; rfl) (by rw [hltech]; rfl) (by rw [hlpl]; rfl)),
      exceptBind_ok (checkThought_of hth),
      exceptBind_ok (checkPatterns_of hpat),
      exceptBind_ok (checkIntake_of hint),
      exceptBind_ok (checkTechnique_of htech)]
    simp only [checkPlan, getJ, hlpl, Option.getD_some]
    exact checkPlanKeys_of hpk
  | null => exact Bool.noConfusion h
  | bool b => exact Bool.noConfusion h
  | num n => exact Bool.noConfusion h
  | str s => exact Bool.noConfusion h
  | arr l => exact Bool.noConfusion h

/-- C3 witness: the concrete schema-conforming record passes the validator. -/
theorem validator_accepts_schema_w : _validate_cactus_shape okJson = .ok () :=
  validator_accepts_schema okJson (by rfl)

/-! ## C4: mutation behaviour of the validator -/

/-- A `getJ` hitting an array pins down the lookup. -/
theorem lookupJ_of_getJ_arr {o : List (String × Json)} {k : String}
    {l : List Json} (h : getJ o k = .arr l) :
    lookupJ o k = some (.arr l) := by
  rw [getJ] at h
  cases hl : lookupJ o k with
  | none => rw [hl] at h; exact absurd h (by simp [Option.getD])
  | some v => rw [hl] at h; rw [Option.getD_some] at h; rw [h]

/-- `checkThought` only reads the `thought` entry. -/
theorem checkThought_congr {o o' : List (String × Json)}
    (h : getJ o' "thought" = getJ o "thought") :
    checkThought o' = checkThought o := by
  rw [checkThought, checkThought, h]

/-- `checkPatterns` only reads the `patterns` entry. -/
theorem checkPatterns_congr {o o' : List (String × Json)}
    (h : getJ o' "patterns" = getJ o "patterns") :
    checkPatterns o' = checkPatterns o := by
  rw [checkPatterns, checkPatterns, h]

/-- `checkTechnique` only reads the `cbt_technique` entry. -/
theorem checkTechnique_congr {o o' : List (String × Json)}
    (h : getJ o' "cbt_technique" = getJ o "cbt_technique") :
    checkTechnique o' = checkTechnique o := by
  rw [checkTechnique, checkTechnique, h]

/-- `checkIntake` only reads the `intake_form` entry. -/
theorem checkIntake_congr {o o' : List (String × Json)}
    (h : getJ o' "intake_form" = getJ o "intake_form") :
    checkIntake o' = checkIntake o := by
  rw [checkIntake, checkIntake, h]

/-- `checkClientInfo` only reads the `client_info` entry. -/
theorem checkClientInfo_congr {i i' : List (String × Json)}
    (h : getJ i' "client_info" = getJ i "client_info") :
    checkClientInfo i' = checkClientInfo i := by
  rw [checkClientInfo, checkClientInfo, h]

/-- `checkStrField` only reads its own field. -/
theorem checkStrField_congr {i i' : List (String × Json)} {f : String}
    (h1 : hasKey i' f = hasKey i f) (h2 : getJ i' f = getJ i f) :
    checkStrField i' f = checkStrField i f := by
  rw [checkStrField, checkStrField, h1, h2]

/-- `checkListField` only reads its own field. -/
theorem checkListField_congr {i i' : List (String × Json)} {f : String} {n : Nat}
    (h1 : hasKey i' f = hasKey i f) (h2 : getJ i' f = getJ i f) :
    checkListField i' f n = checkListField i f n := by
  rw [checkListField, checkListField, h1, h2]

/-- Inverting a successful validation into the facts each stage certifies. -/
theorem validate_ok_inv {j : Json} (h : _validate_cactus_shape j = .ok ()) :
    ∃ o, j = .obj o ∧
      checkTop o = .ok () ∧ checkThought o = .ok () ∧ checkPatterns o = .ok () ∧
      checkIntake o = .ok () ∧ checkTechnique o = .ok () ∧
      (∃ i, lookupJ o "intake_form" = some (.obj i) ∧
        (∃ ci, lookupJ i "client_info" = some (.obj ci) ∧
          checkCIKeys ciRequired ci = .ok ()) ∧
        checkListField i "presenting_problem" 3 = .ok () ∧
        checkListField i "past_history" 1 = .ok () ∧
        checkListField i "academic_occupational_functioning_level" 1 = .ok () ∧
        checkStrField i "reason_for_seeking_counseling" = .ok () ∧
        checkStrField i "social_support_system" = .ok ()) ∧
      (∃ p, lookupJ o "cbt_plan" = some (.obj p) ∧
        checkPlanKeys planKeys p = .ok ()) := by
  cases j with
  | null => exact Except.noConfusion h
  | bool b => exact Except.noConfusion h
  | num n => exact Except.noConfusion h
  | str s => exact Except.noConfusion h
  | arr l => exact Except.noConfusion h
  | obj o =>
    have hv : validateObj o = .ok () := h
    rw [validateObj] at hv
    cases h1 : checkTop o with
    | error e => rw [exceptBind_error h1] at hv; exact Except.noConfusion hv
    | ok u =>
      cases u
      rw [exceptBind_ok h1] at hv
      cases h2 : checkThought o with
      | error e => rw [exceptBind_error h2] at hv; exact Except.noConfusion hv
      | ok u =>
        cases u
        rw [exceptBind_ok h2] at hv
        cases h3 : checkPatterns o with
        | error e => rw [exceptBind_error h3] at hv; exact Except.noConfusion hv
        | ok u =>
          cases u
          rw [exceptBind_ok h3] at hv
          cases h4 : checkIntake o with
          | error e => rw [exceptBind_error h4] at hv; exact Except.noConfusion hv
          | ok u =>
            cases u
            rw [exceptBind_ok h4] at hv
            cases h5 : checkTechnique o with
            | error e => rw [exceptBind_error h5] at hv; exact Except.noConfusion hv
            | ok u =>
              cases u
              rw [exceptBind_ok h5] at hv
              refine ⟨o, rfl, h1, h2, h3, h4, h5, ?_, ?_⟩
              · -- dissect checkIntake
                have h4' := h4
                cases hgi : getJ o "intake_form" with
                | obj i =>
                  simp only [checkIntake, hgi] at h4'
                  refine ⟨i, lookupJ_of_getJ_obj hgi, ?_⟩
                  cases hc1 : checkClientInfo i with
                  | error e => rw [exceptBind_error hc1] at h4'; exact Except.noConfusion h4'
                  | ok u =>
                    cases u
                    rw [exceptBind_ok hc1] at h4'
                    cases hc2 : checkListFields i with
                    | error e => rw [exceptBind_error hc2] at h4'; exact Except.noConfusion h4'
                    | ok u =>
                      cases u
                      rw [exceptBind_ok hc2] at h4'
                      cases hc3 : checkStrField i "reason_for_seeking_counseling" with
                      | error e =>
                        rw [exceptBind_error hc3] at h4'; exact Except.noConfusion h4'
                      | ok u =>
                        cases u
                        rw [exceptBind_ok hc3] at h4'
                        -- client_info object
                        have hclient : ∃ ci, lookupJ i "client_info" = some (.obj ci) ∧
                            checkCIKeys ciRequired ci = .ok () := by
                          cases hgc : getJ i "client_info" with
                          | obj ci =>
                            simp only [checkClientInfo, hgc] at hc1
                            exact ⟨ci, lookupJ_of_getJ_obj hgc, hc1⟩
                          | null => simp [checkClientInfo, hgc] at hc1
                          | bool b => simp [checkClientInfo, hgc] at hc1
                          | num n => simp [checkClientInfo, hgc] at hc1
                          | str s => simp [checkClientInfo, hgc] at hc1
                          | arr l => simp [checkClientInfo, hgc] at hc1
                        -- the three list fields
                        have hlists := hc2
                        simp only [checkListFields, checkListFieldsGo, listFieldsSpec] at hlists
                        cases hf1 : checkListField i "presenting_problem" 3 with
                        | error e => rw [hf1] at hlists; exact Except.noConfusion hlists
                        | ok u =>
                          cases u
                          rw [hf1] at hlists
                          cases hf2 : checkListField i "past_history" 1 with
                          | error e => rw [hf2] at hlists; exact Except.noConfusion hlists
                          | ok u =>
                            cases u
                            rw [hf2] at hlists
                            cases hf3 : checkListField i
                                "academic_occupational_functioning_level" 1 with
                            | error e => rw [hf3] at hlists; exact Except.noConfusion hlists
                            | ok u =>
                              cases u
                              exact ⟨hclient, rfl, rfl, rfl, rfl, h4'⟩
                | null => simp [checkIntake, hgi] at h4'
                | bool b => simp [checkIntake, hgi] at h4'
                | num n => simp [checkIntake, hgi] at h4'
                | str s => simp [checkIntake, hgi] at h4'
                | arr l => simp [checkIntake, hgi] at h4'
              · -- dissect checkPlan
                cases hgp : getJ o "cbt_plan" with
                | obj p =>
                  simp only [checkPlan, hgp] at hv
                  exact ⟨p, lookupJ_of_getJ_obj hgp, hv⟩
                | null => simp [checkPlan, hgp] at hv
                | bool b => simp [checkPlan, hgp] at hv
                | num n => simp [checkPlan, hgp] at hv
                | str s => simp [checkPlan, hgp] at hv
                | arr l => simp [checkPlan, hgp] at hv

/-- C4 counterexample: a record whose `cbt_plan` holds keys "1".."6" — so
not exactly "1".."5" — passes the validator, because the plan loop checks
only that "1".."5" are present and never rejects extra keys. -/
theorem validator_acceptsExtraPlanKeys :
    cbtPlanExactlyKeys15 sixPlanKeysJson = false ∧
    _validate_cactus_shape sixPlanKeysJson = .ok () := by
  exact ⟨by rfl, by rfl⟩

/-- C4 amended: on any record the validator accepts, removing any one
required field — top-level, in `client_info`, or in `intake_form` — raises
the violation naming that field; shortening `presenting_problem` below 3
items raises its length violation; and removing any one of the plan keys
"1".."5" raises the `cbt_plan` violation (extra plan keys, however, are not
rejected).  The embedding is a pure function, so the same malformed input
always reproduces the same first violation. -/
theorem validator_mutations (j : Json) (hval : _validate_cactus_shape j = .ok ()) :
    (∀ k ∈ requiredTop, _validate_cactus_shape (removeTopField j k) =
      .error ("Missing top-level key: " ++ k)) ∧
    (∀ k ∈ ciRequired, _validate_cactus_shape (removeCIField j k) =
      .error ("Missing intake_form.client_info key: " ++ k)) ∧
    _validate_cactus_shape (removeIntakeField j "presenting_problem") =
      .error (lenMsg "presenting_problem" 3) ∧
    _validate_cactus_shape (removeIntakeField j "past_history") =
      .error (lenMsg "past_history" 1) ∧
    _validate_cactus_shape (removeIntakeField j "academic_occupational_functioning_level") =
      .error (lenMsg "academic_occupational_functioning_level" 1) ∧
    _validate_cactus_shape (removeIntakeField j "reason_for_seeking_counseling") =
      .error "intake_form.reason_for_seeking_counseling must be a non-empty string" ∧
    _validate_cactus_shape (removeIntakeField j "social_support_system") =
      .error "intake_form.social_support_system must be a non-empty string" ∧
    (∀ n, n < 3 → _validate_cactus_shape (truncPP j n) =
      .error (lenMsg "presenting_problem" 3)) ∧
    (∀ k ∈ planKeys, _validate_cactus_shape (removePlanKey j k) = .error planMsg) := by
  obtain ⟨o, rfl, htop, hth, hpat, hint, htech,
    ⟨i, hli, ⟨ci, hlci, hciok⟩, hf1, hf2, hf3, hre, hso⟩, ⟨p, hlp, hpok⟩⟩ :=
    validate_ok_inv hval
  have hfm : firstMissing requiredTop o = none := by
    cases hfm0 : firstMissing requiredTop o with
    | none => rfl
    | some k0 => rw [checkTop, hfm0] at htop; exact Except.noConfusion htop
  have hgci : getJ i "client_info" = .obj ci := by rw [getJ, hlci]; rfl
  have hciA : checkClientInfo i = .ok () := by
    simp only [checkClientInfo, hgci]; exact hciok
  -- sub-dissection of the presenting_problem check, for the truncation case
  have hppl : ∃ l, lookupJ i "presenting_problem" = some (.arr l) ∧ ¬l.length < 3 := by
    have hf1' := hf1
    rw [checkListField] at hf1'
    cases hk : hasKey i "presenting_problem" with
    | false => rw [if_neg (by simp [hk])] at hf1'; exact Except.noConfusion hf1'
    | true =>
      rw [if_pos hk] at hf1'
      cases hg : getJ i "presenting_problem" with
      | arr l =>
        simp only [hg] at hf1'
        by_cases hlen : l.length < 3
        · rw [if_pos hlen] at hf1'; exact Except.noConfusion hf1'
        · exact ⟨l, lookupJ_of_getJ_arr hg, hlen⟩
      | null => simp [hg] at hf1'
      | bool b => simp [hg] at hf1'
      | num n => simp [hg] at hf1'
      | str s => simp [hg] at hf1'
      | obj oo => simp [hg] at hf1'
  -- shared assembly: an intake-stage failure is the whole validator's failure
  have hassemble : ∀ (g : Json → Json) (msg : String),
      checkIntake (setKeyF o "intake_form" g) = .error msg →
      validateObj (setKeyF o "intake_form" g) = .error msg := by
    intro g msg hErr
    rw [validateObj,
      exceptBind_ok (show checkTop (setKeyF o "intake_form" g) = .ok () by
        rw [checkTop, firstMissing_setKeyF, hfm]),
      exceptBind_ok (show checkThought (setKeyF o "intake_form" g) = .ok () by
        rw [checkThought_congr (getJ_setKeyF_ne o "intake_form" g "thought" (by decide))]
        exact hth),
      exceptBind_ok (show checkPatterns (setKeyF o "intake_form" g) = .ok () by
        rw [checkPatterns_congr (getJ_setKeyF_ne o "intake_form" g "patterns" (by decide))]
        exact hpat),
      exceptBind_error hErr]
  have hgiOf : ∀ g : Json → Json,
      getJ (setKeyF o "intake_form" g) "intake_form" = g (.obj i) := by
    intro g
    rw [getJ, lookupJ_setKeyF_self, hli]
    rfl
  refine ⟨?_, ?_, ?_, ?_, ?_, ?_, ?_, ?_, ?_⟩
  · -- removing a top-level key
    intro k hk
    show validateObj (removeKey o k) = _
    rw [validateObj,
      exceptBind_error (show checkTop (removeKey o k) =
          .error ("Missing top-level key: " ++ k) by
        rw [checkTop, firstMissing_removeKey requiredTop o k hfm hk])]
  · -- removing a client_info key
    intro k hk
    show validateObj (setKeyF o "intake_form"
      (mapObjVal "client_info" (removeObjKey k))) = _
    apply hassemble
    have hgci' : getJ (setKeyF i "client_info" (removeObjKey k)) "client_info"
        = .obj (removeKey ci k) := by
      rw [getJ, lookupJ_setKeyF_self, hlci]
      rfl
    have hcc : checkClientInfo (setKeyF i "client_info" (removeObjKey k))
        = .error ("Missing intake_form.client_info key: " ++ k) := by
      simp only [checkClientInfo, hgci']
      exact checkCIKeys_removeKey ciRequired ci k hciok hk
    simp only [checkIntake, hgiOf (mapObjVal "client_info" (removeObjKey k)), mapObjVal]
    rw [exceptBind_error hcc]
  · -- removing presenting_problem
    show validateObj (setKeyF o "intake_form" (removeObjKey "presenting_problem")) = _
    apply hassemble
    simp only [checkIntake, hgiOf (removeObjKey "presenting_problem"), removeObjKey]
    rw [exceptBind_ok (show checkClientInfo (removeKey i "presenting_problem") = .ok () by
        rw [checkClientInfo_congr
          (getJ_removeKey_ne i "presenting_problem" "client_info" (by decide))]
        exact hciA),
      exceptBind_error (show checkListFields (removeKey i "presenting_problem")
          = .error (lenMsg "presenting_problem" 3) by
        have hlf : checkListField (removeKey i "presenting_problem")
            "presenting_problem" 3 = .error (lenMsg "presenting_problem" 3) := by
          rw [checkListField, if_neg (by simp [hasKey_removeKey_self])]
        simp only [checkListFields, checkListFieldsGo, listFieldsSpec, hlf])]
  · -- removing past_history
    show validateObj (setKeyF o "intake_form" (removeObjKey "past_history")) = _
    apply hassemble
    simp only [checkIntake, hgiOf (removeObjKey "past_history"), removeObjKey]
    rw [exceptBind_ok (show checkClientInfo (removeKey i "past_history") = .ok () by
        rw [checkClientInfo_congr
          (getJ_removeKey_ne i "past_history" "client_info" (by decide))]
        exact hciA),
      exceptBind_error (show checkListFields (removeKey i "past_history")
          = .error (lenMsg "past_history" 1) by
        have c1 : checkListField (removeKey i "past_history") "presenting_problem" 3
            = .ok () := by
          rw [checkListField_congr
            (hasKey_removeKey_ne i "past_history" "presenting_problem" (by decide))
            (getJ_removeKey_ne i "past_history" "presenting_problem" (by decide))]
          exact hf1
        have hlf : checkListField (removeKey i "past_history") "past_history" 1
            = .error (lenMsg "past_history" 1) := by
          rw [checkListField, if_neg (by simp [hasKey_removeKey_self])]
        simp only [checkListFields, checkListFieldsGo, listFieldsSpec, c1, hlf])]
  · -- removing academic_occupational_functioning_level
    show validateObj (setKeyF o "intake_form"
      (removeObjKey "academic_occupational_functioning_level")) = _
    apply hassemble
    simp only [checkIntake,
      hgiOf (removeObjKey "academic_occupational_functioning_level"), removeObjKey]
    rw [exceptBind_ok (show checkClientInfo
          (removeKey i "academic_occupational_functioning_level") = .ok () by
        rw [checkClientInfo_congr (getJ_removeKey_ne i
          "academic_occupational_functioning_level" "client_info" (by decide))]
        exact hciA),
      exceptBind_error (show checkListFields
          (removeKey i "academic_occupational_functioning_level")
          = .error (lenMsg "academic_occupational_functioning_level" 1) by
        have c1 : checkListField (removeKey i "academic_occupational_functioning_level")
            "presenting_problem" 3 = .ok () := by
          rw [checkListField_congr
            (hasKey_removeKey_ne i "academic_occupational_functioning_level"
              "presenting_problem" (by decide))
            (getJ_removeKey_ne i "academic_occupational_functioning_level"
              "presenting_problem" (by decide))]
          exact hf1
        have c2 : checkListField (removeKey i "academic_occupational_functioning_level")
            "past_history" 1 = .ok () := by
          rw [checkListField_congr
            (hasKey_removeKey_ne i "academic_occupational_functioning_level"
              "past_history" (by decide))
            (getJ_removeKey_ne i "academic_occupational_functioning_level"
              "past_history" (by decide))]
          exact hf2
        have hlf : checkListField (removeKey i "academic_occupational_functioning_level")
            "academic_occupational_functioning_level" 1
            = .error (lenMsg "academic_occupational_functioning_level" 1) := by
          rw [checkListField, if_neg (by simp [hasKey_removeKey_self])]
        simp only [checkListFields, checkListFieldsGo, listFieldsSpec, c1, c2, hlf])]
  · -- removing reason_for_seeking_counseling
    show validateObj (setKeyF o "intake_form"
      (removeObjKey "reason_for_seeking_counseling")) = _
    apply hassemble
    simp only [checkIntake, hgiOf (removeObjKey "reason_for_seeking_counseling"),
      removeObjKey]
    rw [exceptBind_ok (show checkClientInfo
          (removeKey i "reason_for_seeking_counseling") = .ok () by
        rw [checkClientInfo_congr (getJ_removeKey_ne i
          "reason_for_seeking_counseling" "client_info" (by decide))]
        exact hciA),
      exceptBind_ok (show checkListFields (removeKey i "reason_for_seeking_counseling")
          = .ok () by
        have c1 : checkListField (removeKey i "reason_for_seeking_counseling")
            "presenting_problem" 3 = .ok () := by
          rw [checkListField_congr
            (hasKey_removeKey_ne i "reason_for_seeking_counseling"
              "presenting_problem" (by decide))
            (getJ_removeKey_ne i "reason_for_seeking_counseling"
              "presenting_problem" (by decide))]
          exact hf1
        have c2 : checkListField (removeKey i "reason_for_seeking_counseling")
            "past_history" 1 = .ok () := by
          rw [checkListField_congr
            (hasKey_removeKey_ne i "reason_for_seeking_counseling"
              "past_history" (by decide))
            (getJ_removeKey_ne i "reason_for_seeking_counseling"
              "past_history" (by decide))]
          exact hf2
        have c3 : checkListField (removeKey i "reason_for_seeking_counseling")
            "academic_occupational_functioning_level" 1 = .ok () := by
          rw [checkListField_congr
            (hasKey_removeKey_ne i "reason_for_seeking_counseling"
              "academic_occupational_functioning_level" (by decide))
            (getJ_removeKey_ne i "reason_for_seeking_counseling"
              "academic_occupational_functioning_level" (by decide))]
          exact hf3
        simp only [checkListFields, checkListFieldsGo, listFieldsSpec, c1, c2, c3]),
      exceptBind_error (show checkStrField (removeKey i "reason_for_seeking_counseling")
          "reason_for_seeking_counseling"
          = .error "intake_form.reason_for_seeking_counseling must be a non-empty string" by
        rw [checkStrField, if_neg (by simp [hasKey_removeKey_self])]
        rfl)]
  · -- removing social_support_system
    show validateObj (setKeyF o "intake_form"
      (removeObjKey "social_support_system")) = _
    apply hassemble
    simp only [checkIntake, hgiOf (removeObjKey "social_support_system"), removeObjKey]
    rw [exceptBind_ok (show checkClientInfo
          (removeKey i "social_support_system") = .ok () by
        rw [checkClientInfo_congr (getJ_removeKey_ne i
          "social_support_system" "client_info" (by decide))]
        exact hciA),
      exceptBind_ok (show checkListFields (removeKey i "social_support_system")
          = .ok () by
        have c1 : checkListField (removeKey i "social_support_system")
            "presenting_problem" 3 = .ok () := by
          rw [checkListField_congr
            (hasKey_removeKey_ne i "social_support_system"
              "presenting_problem" (by decide))
            (getJ_removeKey_ne i "social_support_system"
              "presenting_problem" (by decide))]
          exact hf1
        have c2 : checkListField (removeKey i "social_support_system")
            "past_history" 1 = .ok () := by
          rw [checkListField_congr
            (hasKey_removeKey_ne i "social_support_system"
              "past_history" (by decide))
            (getJ_removeKey_ne i "social_support_system"
              "past_history" (by decide))]
          exact hf2
        have c3 : checkListField (removeKey i "social_support_system")
            "academic_occupational_functioning_level" 1 = .ok () := by
          rw [checkListField_congr
            (hasKey_removeKey_ne i "social_support_system"
              "academic_occupational_functioning_level" (by decide))
            (getJ_removeKey_ne i "social_support_system"
              "academic_occupational_functioning_level" (by decide))]
          exact hf3
        simp only [checkListFields, checkListFieldsGo, listFieldsSpec, c1, c2, c3]),
      exceptBind_ok (show checkStrField (removeKey i "social_support_system")
          "reason_for_seeking_counseling" = .ok () by
        rw [checkStrField_congr
          (hasKey_removeKey_ne i "social_support_system"
            "reason_for_seeking_counseling" (by decide))
          (getJ_removeKey_ne i "social_support_system"
            "reason_for_seeking_counseling" (by decide))]
        exact hre)]
    rw [checkStrField, if_neg (by simp [hasKey_removeKey_self])]
    rfl
  · -- truncating presenting_problem below three items
    intro n hn
    obtain ⟨l, hlpp, hlen3⟩ := hppl
    show validateObj (setKeyF o "intake_form"
      (mapObjVal "presenting_problem" (truncArr n))) = _
    apply hassemble
    simp only [checkIntake, hgiOf (mapObjVal "presenting_problem" (truncArr n)),
      mapObjVal]
    rw [exceptBind_ok (show checkClientInfo
          (setKeyF i "presenting_problem" (truncArr n)) = .ok () by
        rw [checkClientInfo_congr (getJ_setKeyF_ne i "presenting_problem"
          (truncArr n) "client_info" (by decide))]
        exact hciA)]
    have hkpp : hasKey (setKeyF i "presenting_problem" (truncArr n))
        "presenting_problem" = true := by
      rw [hasKey_setKeyF, hasKey, hlpp]
      rfl
    have hgpp : getJ (setKeyF i "presenting_problem" (truncArr n))
        "presenting_problem" = .arr (l.take n) := by
      rw [getJ, lookupJ_setKeyF_self, hlpp]
      rfl
    have hlf : checkListField (setKeyF i "presenting_problem" (truncArr n))
        "presenting_problem" 3 = .error (lenMsg "presenting_problem" 3) := by
      rw [checkListField, if_pos hkpp]
      simp only [hgpp]
      rw [if_pos (show (l.take n).length < 3 by
        rw [List.length_take]
        exact lt_of_le_of_lt (min_le_left n l.length) hn)]
    rw [exceptBind_error (show checkListFields
        (setKeyF i "presenting_problem" (truncArr n))
        = .error (lenMsg "presenting_problem" 3) by
      simp only [checkListFields, checkListFieldsGo, listFieldsSpec, hlf])]
  · -- removing a cbt_plan key
    intro k hk
    show validateObj (setKeyF o "cbt_plan" (removeObjKey k)) = _
    rw [validateObj,
      exceptBind_ok (show checkTop (setKeyF o "cbt_plan" (removeObjKey k)) = .ok () by
        rw [checkTop, firstMissing_setKeyF, hfm]),
      exceptBind_ok (show checkThought (setKeyF o "cbt_plan" (removeObjKey k)) = .ok () by
        rw [checkThought_congr
          (getJ_setKeyF_ne o "cbt_plan" (removeObjKey k) "thought" (by decide))]
        exact hth),
      exceptBind_ok (show checkPatterns (setKeyF o "cbt_plan" (removeObjKey k)) = .ok () by
        rw [checkPatterns_congr
          (getJ_setKeyF_ne o "cbt_plan" (removeObjKey k) "patterns" (by decide))]
        exact hpat),
      exceptBind_ok (show checkIntake (setKeyF o "cbt_plan" (removeObjKey k)) = .ok () by
        rw [checkIntake_congr
          (getJ_setKeyF_ne o "cbt_plan" (removeObjKey k) "intake_form" (by decide))]
        exact hint),
      exceptBind_ok (show checkTechnique (setKeyF o "cbt_plan" (removeObjKey k)) = .ok () by
        rw [checkTechnique_congr
          (getJ_setKeyF_ne o "cbt_plan" (removeObjKey k) "cbt_technique" (by decide))]
        exact htech)]
    have hgp' : getJ (setKeyF o "cbt_plan" (removeObjKey k)) "cbt_plan"
        = .obj (removeKey p k) := by
      rw [getJ, lookupJ_setKeyF_self, hlp]
      rfl
    simp only [checkPlan, hgp']
    exact checkPlanKeys_removeKey planKeys p k hpok hk

/-- C4 witness: removing the `thought` key from the concrete valid record
raises the violation naming `thought`. -/
theorem validator_mutations_w :
    _validate_cactus_shape (removeTopField okJson "thought") =
      .error ("Missing top-level key: " ++ "thought") :=
  (validator_mutations okJson (by rfl)).1 "thought" (by simp [requiredTop])

end Spec2Proof
